import Mathlib

/-!
# Workik AI test-case generator: generation and publication pipeline

A shallow embedding of the backend services `githubService.js`, `aiService.js` and of the
stage routes of `routes/api.js`, followed by the properties proved about them.

Conventions of the embedding.

* An awaited call either resolves with a payload or throws: it is an `Except JsError _`.
* The remote code host is an oracle `Host`: the response to a call is a function of the calls
  made before it and of the call itself.  Every run records the calls it makes and the responses
  it receives in a log.
* `Date.now()` is a parameter of the operation that reads it.
-/

namespace Workik

/-! ## JavaScript values -/

/-- A JavaScript `Error`: its `message` and the numeric `status` that errors of the host client
carry (`none` for an error built with `new Error(message)`). -/
structure JsError where
  message : String
  status : Option Nat
deriving DecidableEq, Repr

deriving instance DecidableEq for Except

/-- Result of an awaited call whose payload is a string. -/
abbrev Resp := Except JsError String

/-- Interpolation `${v}` of a possibly undefined string inside a template literal. -/
def tmpl : Option String → String
  | some s => s
  | none => "undefined"

/-- The expression `v || d` for a possibly undefined string `v`: the empty string is falsy. -/
def orDefault (v : Option String) (d : String) : String :=
  match v with
  | some s => if s = "" then d else s
  | none => d

/-- The method `String.prototype.includes`, on the characters of the two strings. -/
def includes (s sub : String) : Bool :=
  s.data.tails.any (fun t => sub.data.isPrefixOf t)

/-! ## githubService.js : createPullRequest -/

/-- One element of `generatedCodes` as `createPullRequest` reads it. -/
structure CodeData where
  filename : Option String
  code : Option String
  framework : Option String
  language : Option String
  setupInstructions : Option String
deriving DecidableEq, Repr

/-- The calls `createPullRequest` makes on the host client.  The `content` of `putFile` is the
UTF-8 text whose base64 encoding is transmitted. -/
inductive Call where
  | reposGet (owner repo : String)
  | getRef (owner repo ref : String)
  | createRef (owner repo ref sha : String)
  | putFile (owner repo path message content branch : String)
  | pullsCreate (owner repo title head base body : String)
deriving DecidableEq, Repr

/-- The remote host: its response to a call, given the calls made before it in this run. -/
abbrev Host := List Call → Call → Resp

/-- A call that was made, with the response it received. -/
structure Event where
  call : Call
  resp : Resp
deriving DecidableEq

/-- Whether the call of the event resolved. -/
def Event.ok (e : Event) : Bool :=
  match e.resp with
  | .ok _ => true
  | .error _ => false

/-- Await one host call and record it. -/
def perform (host : Host) (log : List Event) (c : Call) : Resp × List Event :=
  let r := host (log.map Event.call) c
  (r, log ++ [⟨c, r⟩])

/-- The branch name of Step 3, for the clock reading `now`. -/
def branchNameAt (now : Nat) : String :=
  "workik-ai-tests-" ++ toString now

/-- The path under which an artifact is written. -/
def testPath (codeData : CodeData) : String :=
  "tests/" ++ tmpl codeData.filename

/-- The commit message of an artifact write. -/
def testMessage (codeData : CodeData) : String :=
  "Add AI-generated test: " ++ tmpl codeData.filename

/-- The host call of Step 4 for one artifact whose code is `code`. -/
def writeCall (owner repo branchName : String) (codeData : CodeData) (code : String) : Call :=
  .putFile owner repo (testPath codeData) (testMessage codeData) code branchName

/-- Step 4, the loop over `generatedCodes`: `Buffer.from(undefined)` throws before the host is
called, a failed write is logged and skipped, a successful one pushes its path. -/
def commitFiles (host : Host) (owner repo branchName : String) :
    List CodeData → List Event → List String → List Event × List String
  | [], log, createdFiles => (log, createdFiles)
  | codeData :: rest, log, createdFiles =>
    match codeData.code with
    | none => commitFiles host owner repo branchName rest log createdFiles
    | some code =>
      match perform host log (writeCall owner repo branchName codeData code) with
      | (.ok _, log1) =>
        commitFiles host owner repo branchName rest log1 (createdFiles ++ [testPath codeData])
      | (.error _, log1) => commitFiles host owner repo branchName rest log1 createdFiles

/-- The expression `generatedCodes[0]?.framework`. -/
def firstFramework (generatedCodes : List CodeData) : Option String :=
  generatedCodes.head?.bind CodeData.framework

/-- The text of `tests/README.md` written by Step 5. -/
def readmeContent (createdFiles : List String) (generatedCodes : List CodeData) : String :=
  "# AI Generated Test Cases\n\n" ++
  "This directory contains test cases automatically generated by Workik AI Test Case Generator.\n\n" ++
  "## Generated Files\n" ++
  String.intercalate "\n" (createdFiles.map (fun file => "- " ++ file)) ++ "\n\n" ++
  "## Setup Instructions\n\n" ++
  "### For JavaScript/TypeScript projects:\n" ++
  "```bash\n" ++
  "npm install --save-dev " ++ orDefault (firstFramework generatedCodes) "jest" ++ "\n" ++
  "npm test\n" ++
  "```\n\n" ++
  "### For Python projects:\n" ++
  "```bash\n" ++
  "pip install " ++ orDefault (firstFramework generatedCodes) "pytest" ++ "\n" ++
  orDefault (firstFramework generatedCodes) "pytest" ++ "\n" ++
  "```\n\n" ++
  "### For Java projects:\n" ++
  "```bash\n" ++
  "mvn test\n" ++
  "```\n\n" ++
  "## Generated by Workik AI 🚀\n" ++
  "These tests were generated using advanced AI to provide comprehensive coverage for your codebase.\n"

/-- The commit message of the README write. -/
def readmeMessage : String := "Add AI-generated tests README"

/-- The host call of Step 5. -/
def readmeCall (owner repo branchName : String) (createdFiles : List String)
    (generatedCodes : List CodeData) : Call :=
  .putFile owner repo "tests/README.md" readmeMessage
    (readmeContent createdFiles generatedCodes) branchName

/-- Opening of the pull-request body, up to the file count. -/
def prBodyHead : String :=
  "## 🚀 AI Generated Test Cases\n\nThis PR contains **"

/-- Text of the pull-request body between the file count and the file list. -/
def prBodyMid : String :=
  "** automatically generated test cases using **Workik AI Test Case Generator**.\n\n" ++
  "### 📁 Generated Files:\n"

/-- One line of the file list of the pull-request body. -/
def prBullet (file : String) : String :=
  "- `" ++ file ++ "`"

/-- Text of the pull-request body after the file list. -/
def prBodyTail (generatedCodes : List CodeData) : String :=
  "\n\n### 🧪 Test Framework:\n" ++
  "- **Framework**: " ++ orDefault (firstFramework generatedCodes) "Multiple" ++ "\n" ++
  "- **Language**: " ++ orDefault (generatedCodes.head?.bind CodeData.language) "Multiple" ++ "\n" ++
  "- **Test Types**: Unit, Integration, Edge Cases\n\n" ++
  "### 🏃‍♂️ How to Run:\n" ++
  "```bash\n" ++
  orDefault (generatedCodes.head?.bind CodeData.setupInstructions) "npm test" ++ "\n" ++
  "```\n\n" ++
  "### 🤖 About Workik AI:\n" ++
  "These tests were intelligently generated by analyzing your codebase structure, identifying key functions, and creating comprehensive test scenarios including:\n" ++
  "- ✅ Happy path scenarios\n" ++
  "- ✅ Edge cases and boundary conditions  \n" ++
  "- ✅ Error handling validation\n" ++
  "- ✅ Integration testing\n\n" ++
  "---\n" ++
  "*Generated by [Workik AI Test Case Generator](https://github.com) 🚀*"

/-- The `body` of the pull request opened by Step 6. -/
def prBody (createdFiles : List String) (generatedCodes : List CodeData) : String :=
  prBodyHead ++ toString createdFiles.length ++ prBodyMid ++
  String.intercalate "\n" (createdFiles.map prBullet) ++ prBodyTail generatedCodes

/-- The title of the pull request. -/
def prTitle : String := "🤖 AI Generated Test Cases"

/-- The host call of Step 6. -/
def prCall (owner repo branchName defaultBranch : String) (createdFiles : List String)
    (generatedCodes : List CodeData) : Call :=
  .pullsCreate owner repo prTitle branchName defaultBranch (prBody createdFiles generatedCodes)

/-- Steps 5 and 6: the README write, whose outcome is ignored, then the pull request. -/
def publishFiles (host : Host) (owner repo branchName defaultBranch : String)
    (generatedCodes : List CodeData) (log : List Event) (createdFiles : List String) :
    Resp × List Event :=
  let (_, log1) := perform host log (readmeCall owner repo branchName createdFiles generatedCodes)
  match perform host log1 (prCall owner repo branchName defaultBranch createdFiles generatedCodes) with
  | (.ok htmlUrl, log2) => (.ok htmlUrl, log2)
  | (.error prError, log2) =>
    (.error ⟨"Failed to create pull request: " ++ prError.message, none⟩, log2)

/-- Steps 3 to 6, entered once the head SHA of `defaultBranch` is known. -/
def fromSha (host : Host) (now : Nat) (owner repo : String) (generatedCodes : List CodeData)
    (defaultBranch latestSha : String) (log : List Event) : Resp × List Event :=
  let branchName := branchNameAt now
  match perform host log (.createRef owner repo ("refs/heads/" ++ branchName) latestSha) with
  | (.error error, log1) => (.error ⟨"Failed to create branch: " ++ error.message, none⟩, log1)
  | (.ok _, log1) =>
    match commitFiles host owner repo branchName generatedCodes log1 [] with
    | (log2, createdFiles) =>
      if createdFiles.length = 0 then
        (.error ⟨"Failed to create any test files", none⟩, log2)
      else
        publishFiles host owner repo branchName defaultBranch generatedCodes log2 createdFiles

/-- The body of the outer `try` of `createPullRequest`: Steps 1 to 6. -/
def tryPullRequest (host : Host) (now : Nat) (owner repo : String)
    (generatedCodes : List CodeData) : Resp × List Event :=
  match perform host [] (.reposGet owner repo) with
  | (r1, log1) =>
    let defaultBranch :=
      match r1 with
      | .ok branch => branch
      | .error _ => "main"
    match perform host log1 (.getRef owner repo ("heads/" ++ defaultBranch)) with
    | (.ok sha, log2) => fromSha host now owner repo generatedCodes defaultBranch sha log2
    | (.error _, log2) =>
      match perform host log2 (.getRef owner repo "heads/master") with
      | (.ok sha, log3) => fromSha host now owner repo generatedCodes "master" sha log3
      | (.error _, log3) =>
        (.error ⟨"Could not find default branch. Tried 'main' and 'master'.", none⟩, log3)

/-- The outer `catch` of `createPullRequest`: the error thrown in place of `error`. -/
def rethrow (owner repo : String) (error : JsError) : JsError :=
  if error.status = some 403 then
    ⟨"Permission denied. Please ensure the GitHub token has repository write access.", none⟩
  else if error.status = some 404 then
    ⟨"Repository " ++ owner ++ "/" ++ repo ++ " not found or not accessible.", none⟩
  else if error.status = some 422 then
    ⟨"Invalid request. The repository might not allow pull requests or the branch already exists.", none⟩
  else
    ⟨"GitHub API error: " ++ error.message, none⟩

/-- The error the outer `catch` throws for an error without status whose message is
`message`. -/
def apiError (message : String) : JsError :=
  ⟨"GitHub API error: " ++ message, none⟩

/-- A run of `createPullRequest`: what it returns or throws, and the host calls it made. -/
structure Run where
  result : Resp
  log : List Event

/-- The method `GitHubService.createPullRequest(user, owner, repo, generatedCodes)`; the
credentials of `user` are part of the host oracle. -/
def createPullRequest (host : Host) (now : Nat) (owner repo : String)
    (generatedCodes : List CodeData) : Run :=
  match tryPullRequest host now owner repo generatedCodes with
  | (.ok htmlUrl, log) => ⟨.ok htmlUrl, log⟩
  | (.error error, log) => ⟨.error (rethrow owner repo error), log⟩

/-- The calls of a log, in order. -/
def calls (log : List Event) : List Call :=
  log.map Event.call

/-- Whether a call is the README write of Step 5, recognised by its commit message. -/
def Call.isReadme : Call → Bool
  | .putFile _ _ _ message _ _ => message == readmeMessage
  | _ => false

/-- Whether a call is an artifact write of Step 4: a file write that is not the README write. -/
def Call.isTestWrite : Call → Bool
  | .putFile _ _ _ message _ _ => message != readmeMessage
  | _ => false

/-- Whether a call creates a branch ref. -/
def Call.isCreateRef : Call → Bool
  | .createRef _ _ _ _ => true
  | _ => false

/-- Whether a call looks up the head of a branch. -/
def Call.isGetRef : Call → Bool
  | .getRef _ _ _ => true
  | _ => false

/-- Whether a call opens a pull request. -/
def Call.isPullsCreate : Call → Bool
  | .pullsCreate _ _ _ _ _ _ => true
  | _ => false

/-- Whether a call writes a file (an artifact or the README). -/
def Call.isPutFile : Call → Bool
  | .putFile _ _ _ _ _ _ => true
  | _ => false

/-- The path a file write targets. -/
def Call.path : Call → String
  | .putFile _ _ path _ _ _ => path
  | _ => ""

/-- The paths of the artifact writes of a log that the host accepted, in order. -/
def committedPaths (log : List Event) : List String :=
  (log.filter (fun e => e.call.isTestWrite && e.ok)).map (fun e => e.call.path)

/-- The branch Step 1 resolves: the default branch the host reports, `main` when the metadata
cannot be read. -/
def resolvedBranch (host : Host) (owner repo : String) : String :=
  match host [] (.reposGet owner repo) with
  | .ok branch => branch
  | .error _ => "main"

/-- The first head lookup of Step 2, for the branch Step 1 resolved. -/
def lookupCall (host : Host) (owner repo : String) : Call :=
  .getRef owner repo ("heads/" ++ resolvedBranch host owner repo)

/-- The second head lookup of Step 2. -/
def masterCall (owner repo : String) : Call :=
  .getRef owner repo "heads/master"

/-- The branch creation of Step 3 from the head `sha`. -/
def branchCall (now : Nat) (owner repo sha : String) : Call :=
  .createRef owner repo ("refs/heads/" ++ branchNameAt now) sha

/-- The result `createPullRequest` derives from the response to the pull-request call. -/
def prResult (pr : Resp) : Resp :=
  match pr with
  | .ok htmlUrl => .ok htmlUrl
  | .error prError => .error (apiError ("Failed to create pull request: " ++ prError.message))

/-- The write calls of Step 4 for a list of artifacts: one per artifact that has code, in
order. -/
def writeCalls (owner repo branchName : String) (codes : List CodeData) : List Call :=
  codes.filterMap (fun c => c.code.map (writeCall owner repo branchName c))

/-- A log records the host faithfully from the history `hist` on: each response is the one the
host gives to the call after the calls before it. -/
def faithfulFrom (host : Host) : List Call → List Event → Prop
  | _, [] => True
  | hist, e :: rest => e.resp = host hist e.call ∧ faithfulFrom host (hist ++ [e.call]) rest

/-! ## models/TestCase.js -/

/-- One entry of `files`: a snapshot of a source file. -/
structure SourceFile where
  path : String
  content : String
  language : String
deriving DecidableEq, Repr

/-- One entry of `summaries`: the `id` path of the schema and the `_id` of the subdocument. -/
structure Summary where
  _id : String
  id : Option String
  title : Option String
  description : Option String
  testType : Option String
  framework : Option String
  priority : Option String
deriving DecidableEq, Repr

/-- One entry of `generatedCode`, with the `_id` of the subdocument. -/
structure GeneratedCode where
  _id : String
  summaryId : Option String
  code : Option String
  filename : Option String
  framework : Option String
  language : Option String
deriving DecidableEq, Repr

/-- The `repository` of a job record. -/
structure Repository where
  owner : String
  name : String
  fullName : String
deriving DecidableEq, Repr

/-- A document of the `TestCase` model: the job record. -/
structure TestCase where
  _id : String
  userId : String
  repository : Repository
  files : List SourceFile
  summaries : List Summary
  generatedCode : List GeneratedCode
  status : String
deriving DecidableEq, Repr

/-- The collection of job records. -/
abbrev Db := List TestCase

/-- The query `TestCase.findById(id)` for an `id` that casts to an `ObjectId`; for any other
`id` the query rejects with a `CastError`, which the routes answer with 500. -/
def findById (db : Db) (id : String) : Option TestCase :=
  db.find? (fun t => t._id == id)

/-- The stored collection after `doc.save()` resolved for an existing document. -/
def saved (db : Db) (doc : TestCase) : Db :=
  db.map (fun t => if t._id == doc._id then doc else t)

/-! ## JavaScript objects and strings -/

/-- A plain object seen through its string-valued properties, in insertion order and with
distinct keys: what `JSON.parse` returns for the generative backend's text, restricted to the
property type the record schema stores. -/
abbrev JsObject := List (String × String)

/-- Property read `o[key]`. -/
def JsObject.get (o : JsObject) (key : String) : Option String :=
  (o.find? (fun kv => kv.1 == key)).map Prod.snd

/-- Property write `o[key] = value`: an existing key keeps its position. -/
def JsObject.set : JsObject → String → String → JsObject
  | [], key, value => [(key, value)]
  | (k, v) :: rest, key, value =>
    if k == key then (k, value) :: rest else (k, v) :: JsObject.set rest key value

/-- The object spread `{ ...target, ...source }` onto an object under construction. -/
def JsObject.spread (target source : JsObject) : JsObject :=
  source.foldl (fun acc kv => acc.set kv.1 kv.2) target

/-- The call `chars.split(sep)` for a one-character separator. -/
def splitOnChar (sep : Char) : List Char → List (List Char)
  | [] => [[]]
  | c :: cs =>
    match splitOnChar sep cs with
    | [] => [[]]
    | w :: ws => if c = sep then [] :: w :: ws else (c :: w) :: ws

/-- The call `chars.replace(pat, rep)` for a non-empty string pattern: the first occurrence. -/
def replaceFirst (pat rep : List Char) : List Char → List Char
  | [] => []
  | c :: cs =>
    if pat.isPrefixOf (c :: cs) then rep ++ (c :: cs).drop pat.length
    else c :: replaceFirst pat rep cs

/-! ## aiService.js -/

/-- The names of the members an object literal inherits from `Object.prototype`. -/
def inheritedKeys : List String :=
  ["constructor", "__defineGetter__", "__defineSetter__", "hasOwnProperty",
   "__lookupGetter__", "__lookupSetter__", "isPrototypeOf", "propertyIsEnumerable",
   "toString", "valueOf", "__proto__", "toLocaleString"]

/-- The string conversion of the member of `Object.prototype` read under `key`: the text of a
native function (`Object` itself under `constructor`), or of the prototype object under
`__proto__`. -/
def memberText (key : String) : String :=
  if key = "__proto__" then "[object Object]"
  else "function " ++ (if key = "constructor" then "Object" else key) ++
    "() \x7b [native code] \x7d"

/-- The expression `table[key] || fallback` on an object literal `table` whose own properties
hold strings.  A key that is no own property reads the member inherited from
`Object.prototype` if there is one, which is truthy.  Such a member is not a string: it stands
here as its string conversion, which is what a template literal interpolates for it, the
property name it denotes when it is used as a key, and what the record stores for a function
cast to the `String` of the schema. -/
def readOr (table : List (String × String)) (key fallback : String) : String :=
  match table.lookup key with
  | some v => orDefault (some v) fallback
  | none => if key ∈ inheritedKeys then memberText key else fallback

/-- The method `getTestFramework(language, preferredFramework)`. -/
def getTestFramework (language : String) (preferredFramework : Option String) : String :=
  let frameworkMap : List (String × String) :=
    [("javascript", orDefault preferredFramework "jest"),
     ("typescript", orDefault preferredFramework "jest"),
     ("python", orDefault preferredFramework "pytest"),
     ("java", orDefault preferredFramework "junit"),
     ("go", orDefault preferredFramework "testing"),
     ("csharp", orDefault preferredFramework "xunit")]
  readOr frameworkMap language "jest"

/-- The method `getTestFileName(originalPath, framework)`. -/
def getTestFileName (originalPath framework : String) : String :=
  let pathParts := splitOnChar '/' originalPath.data
  let filename := pathParts.getLastD []
  let nameWithoutExt := (splitOnChar '.' filename).headD []
  let extensionMap : List (String × String) :=
    [("jest", ".test.js"), ("pytest", "_test.py"), ("junit", "Test.java"),
     ("testing", "_test.go"), ("xunit", "Tests.cs")]
  let extension := readOr extensionMap framework ".test.js"
  String.mk nameWithoutExt ++ extension

/-- The method `getRunCommand(framework)`. -/
def getRunCommand (framework : String) : String :=
  let commands : List (String × String) :=
    [("jest", "npm test"), ("pytest", "pytest"), ("junit", "mvn test"),
     ("testing", "go test"), ("xunit", "dotnet test")]
  readOr commands framework "npm test"

/-- The method `toPascalCase(str)`. -/
def toPascalCase (str : String) : String :=
  let spaced := str.data.map (fun c => if c.isAlphanum then c else ' ')
  let words := splitOnChar ' ' spaced
  String.mk (words.flatMap (fun word =>
    match word with
    | [] => []
    | c :: cs => c.toUpper :: cs.map Char.toLower))

/-- The method `extractFunctionNames(code)`: `functionMatches code` lists the first capture
group of the successive matches of `functionRegex`, as the regular-expression engine of the
runtime finds them. -/
def extractFunctionNames (functionMatches : String → List String) (code : String) : List String :=
  (functionMatches code).take 5

/-- One element of the array `generateTestSummaries` returns. -/
structure SummaryDraft where
  id : String
  title : Option String
  description : Option String
  testType : Option String
  framework : Option String
  priority : String
deriving DecidableEq, Repr

/-- The method `getFallbackSummaries(files)`; `clock k` is the `k`-th value `Date.now()` returns
during the call that reads it and `reads` the number of readings made before. -/
def getFallbackSummaries (clock : Nat → Nat) (reads : Nat) (files : List SourceFile) :
    List SummaryDraft :=
  let language := orDefault (files.head?.map SourceFile.language) "javascript"
  let framework := getTestFramework language none
  [ { id := "fallback_unit_" ++ toString (clock reads),
      title := some ("Unit Tests for " ++ orDefault (files.head?.map SourceFile.path) "Main Functions"),
      description := some "Test individual functions and methods in the codebase for correct behavior with valid inputs and proper error handling.",
      testType := some "unit",
      framework := some framework,
      priority := "high" },
    { id := "fallback_integration_" ++ toString (clock (reads + 1)),
      title := some "Integration Tests",
      description := some "Test the interaction between different components and modules to ensure they work together correctly.",
      testType := some "integration",
      framework := some framework,
      priority := "medium" },
    { id := "fallback_edge_" ++ toString (clock (reads + 2)),
      title := some "Edge Cases and Error Handling",
      description := some "Test boundary conditions, invalid inputs, and error scenarios to ensure robust error handling.",
      testType := some "unit",
      framework := some framework,
      priority := "high" } ]

/-- What the generative backend and the parsing of its text give `generateTestSummaries`: the
call raised, the text holds no match of the array pattern, the match is not JSON, or the array
`JSON.parse` returns.  An element `none` is a `null` of the array; any other element that is not
an object reads like the empty object. -/
inductive SummariesReply where
  | raised (error : JsError)
  | noArray
  | badJson
  | array (items : List (Option JsObject))
deriving DecidableEq, Repr

/-- The values interpolated in the prompt of `generateTestSummaries`, one triple per file. -/
structure FileContext where
  path : String
  language : String
  contentPreview : String
deriving DecidableEq, Repr

/-- The callback of `summaries.map` in `generateTestSummaries`, run over the parsed array from
`index` on; `none` when reading a property of a `null` element throws.  The second component
counts the readings of the clock. -/
def mapSummaries (clock : Nat → Nat) :
    List (Option JsObject) → Nat → Nat → Option (List SummaryDraft) × Nat
  | [], _, reads => (some [], reads)
  | none :: _, _, reads => (none, reads)
  | some summary :: rest, index, reads =>
    let idReads : String × Nat :=
      match summary.get "id" with
      | some v =>
        if v = "" then ("test_" ++ toString (clock reads) ++ "_" ++ toString index, reads + 1)
        else (v, reads)
      | none => ("test_" ++ toString (clock reads) ++ "_" ++ toString index, reads + 1)
    match mapSummaries clock rest (index + 1) idReads.2 with
    | (some drafts, reads1) =>
      (some ({ id := idReads.1,
               title := summary.get "title",
               description := summary.get "description",
               testType := summary.get "testType",
               framework := summary.get "framework",
               priority := orDefault (summary.get "priority") "medium" } :: drafts), reads1)
    | (none, reads1) => (none, reads1)

/-- The method `generateTestSummaries(files)`; `model` is the generative backend as a function
of the file contexts of the prompt. -/
def generateTestSummaries (model : List FileContext → SummariesReply) (clock : Nat → Nat)
    (files : List SourceFile) : List SummaryDraft :=
  let filesContext := files.map (fun file =>
    ({ path := file.path, language := file.language,
       contentPreview := file.content.take 2000 } : FileContext))
  match model filesContext with
  | .array summaries =>
    match mapSummaries clock summaries 0 0 with
    | (some drafts, _) => drafts
    | (none, reads) => getFallbackSummaries clock reads files
  | _ => getFallbackSummaries clock 0 files

/-- The values interpolated in the prompt of `generateTestCode`. -/
structure CodePrompt where
  title : String
  description : String
  testType : String
  framework : String
  language : String
  content : String
  filename : String
deriving DecidableEq, Repr

/-- What the generative backend and the parsing of its text give `generateTestCode`: the call
raised, the text holds no match of the object pattern, the match is not JSON, or the object
`JSON.parse` returns. -/
inductive CodeReply where
  | raised (error : JsError)
  | noObject
  | badJson
  | object (o : JsObject)
deriving DecidableEq, Repr

/-- The generative backend for code: its reply to a prompt, given the number of prompts it
answered before in this stage. -/
abbrev CodeModel := Nat → CodePrompt → CodeReply

/-- The Jest template of `getFallbackTestCode`. -/
def jestTemplate (functionMatches : String → List String) (file : SourceFile)
    (summary : Summary) : String :=
  "// " ++ tmpl summary.title ++ "\n" ++
  "import \x7b " ++ String.intercalate ", " (extractFunctionNames functionMatches file.content) ++
    " \x7d from '../" ++ file.path ++ "';\n\n" ++
  "describe('" ++ tmpl summary.title ++ "', () => \x7b\n" ++
  "  test('should handle valid inputs correctly', () => \x7b\n" ++
  "    // Arrange\n" ++
  "    const input = 'test';\n" ++
  "    \n" ++
  "    // Act & Assert\n" ++
  "    expect(true).toBe(true); // Replace with actual test\n" ++
  "  \x7d);\n\n" ++
  "  test('should handle edge cases', () => \x7b\n" ++
  "    // Test edge cases here\n" ++
  "    expect(true).toBe(true);\n" ++
  "  \x7d);\n" ++
  "\x7d);"

/-- The pytest template of `getFallbackTestCode`. -/
def pytestTemplate (file : SourceFile) (summary : Summary) : String :=
  "# " ++ tmpl summary.title ++ "\n" ++
  "import pytest\n" ++
  "from " ++ String.mk (replaceFirst ['/'] ['.'] (replaceFirst ".py".data [] file.path.data)) ++
    " import *\n\n" ++
  "class Test" ++ toPascalCase file.path ++ ":\n" ++
  "    def test_valid_inputs(self):\n" ++
  "        \"\"\"Test with valid inputs\"\"\"\n" ++
  "        assert True  # Replace with actual test\n" ++
  "        \n" ++
  "    def test_edge_cases(self):\n" ++
  "        \"\"\"Test edge cases and boundary conditions\"\"\"\n" ++
  "        assert True  # Replace with actual test"

/-- The method `getFallbackTestCode(file, summary)`.  The `imports` array of the returned
object, which no code of the backend reads, is not represented.  `templates[language]` is an
own property for `javascript` and `python` only; for a language that names an inherited
member, `framework` is the string conversion of that member, which is no property of it, so
`templates[language]?.[framework]` is `undefined` as for any other language. -/
def getFallbackTestCode (functionMatches : String → List String) (file : SourceFile)
    (summary : Summary) : JsObject :=
  let language := file.language
  let framework := getTestFramework language none
  let template :=
    if language = "javascript" ∧ framework = "jest" then jestTemplate functionMatches file summary
    else if language = "python" ∧ framework = "pytest" then pytestTemplate file summary
    else jestTemplate functionMatches file summary
  [("code", template),
   ("filename", getTestFileName file.path framework),
   ("framework", framework),
   ("language", language),
   ("setupInstructions", "Run tests using: " ++ getRunCommand framework)]

/-- The method `generateTestCode(files, summary)`: the object returned or the error thrown, and
the prompts sent to the backend.  `asked` is the number of prompts sent before.  With no file,
`mainFile.language` throws, and so does `getFallbackTestCode(undefined, summary)` in the
`catch`. -/
def generateTestCode (model : CodeModel) (functionMatches : String → List String) (asked : Nat)
    (files : List SourceFile) (summary : Summary) : Except JsError JsObject × List CodePrompt :=
  match files with
  | [] => (.error ⟨"Cannot read properties of undefined (reading 'language')", none⟩, [])
  | mainFile :: _ =>
    let language := mainFile.language
    let framework := getTestFramework language summary.framework
    let prompt : CodePrompt :=
      { title := tmpl summary.title,
        description := tmpl summary.description,
        testType := tmpl summary.testType,
        framework := framework,
        language := language,
        content := mainFile.content,
        filename := getTestFileName mainFile.path framework }
    match model asked prompt with
    | .object o => (.ok o, [prompt])
    | _ => (.ok (getFallbackTestCode functionMatches mainFile summary), [prompt])

/-- The prompt `generateTestCode` sends for `mainFile` and `summary`, by the values it
interpolates. -/
def promptFor (mainFile : SourceFile) (summary : Summary) : CodePrompt :=
  { title := tmpl summary.title,
    description := tmpl summary.description,
    testType := tmpl summary.testType,
    framework := getTestFramework mainFile.language summary.framework,
    language := mainFile.language,
    content := mainFile.content,
    filename := getTestFileName mainFile.path
      (getTestFramework mainFile.language summary.framework) }

/-! ## routes/api.js : the code and publication stages -/

/-- The collaborators of a stage route: the generative backend, the regular-expression matches
of `extractFunctionNames`, the remote host, the clock read by `createPullRequest`, the outcome
of `testCase.save()` for a document, and the `_id` given to the `k`-th subdocument created. -/
structure Services where
  codeModel : CodeModel
  functionMatches : String → List String
  host : Host
  now : Nat
  persist : TestCase → Except JsError Unit
  newId : Nat → String

/-- An error response of a route: the status and the JSON body. -/
structure Failure where
  status : Nat
  message : String
  error : Option String
  details : Option String
deriving DecidableEq, Repr

/-- What a stage route did: the response sent (`ok` for the 200 response), the collection after
the call, the prompts sent to the generative backend and the calls made on the remote host. -/
structure StageResult (α : Type) where
  response : Except Failure α
  db : Db
  prompts : List CodePrompt
  hostLog : List Event

/-- The body of `POST /generate/code` as the route reads it: `testCaseId` (`none` when absent)
and `summaryIds` (`none` when absent or not an array; entries that are not strings match no
summary and are not represented). -/
structure CodeRequest where
  testCaseId : Option String
  summaryIds : Option (List String)
deriving DecidableEq, Repr

/-- The predicate of `testCase.summaries.find` in `POST /generate/code`. -/
def summaryMatches (summaryId : String) (s : Summary) : Bool :=
  s.id == some summaryId || s._id == summaryId

/-- The object literal pushed on `generatedCodes`: `summaryId` first, then the spread of
`code`. -/
def codeEntry (summary : Summary) (code : JsObject) : JsObject :=
  JsObject.spread [("summaryId", orDefault summary.id summary._id)] code

/-- The loop of `POST /generate/code` over `summaryIds`: the array `generatedCodes` it builds,
or the error `generateTestCode` threw, and the prompts sent. -/
def generateCodes (sv : Services) (testCase : TestCase) :
    List String → List JsObject → List CodePrompt → Except JsError (List JsObject) × List CodePrompt
  | [], generatedCodes, prompts => (.ok generatedCodes, prompts)
  | summaryId :: rest, generatedCodes, prompts =>
    match testCase.summaries.find? (summaryMatches summaryId) with
    | none => generateCodes sv testCase rest generatedCodes prompts
    | some summary =>
      match generateTestCode sv.codeModel sv.functionMatches prompts.length testCase.files summary with
      | (.ok code, sent) =>
        generateCodes sv testCase rest (generatedCodes ++ [codeEntry summary code]) (prompts ++ sent)
      | (.error error, sent) => (.error error, prompts ++ sent)

/-- The subdocument the record stores for a pushed object: the paths of the schema. -/
def toGeneratedCode (id : String) (o : JsObject) : GeneratedCode :=
  { _id := id,
    summaryId := o.get "summaryId",
    code := o.get "code",
    filename := o.get "filename",
    framework := o.get "framework",
    language := o.get "language" }

/-- The call `testCase.generatedCode.push(...generatedCodes)`. -/
def pushGeneratedCode (sv : Services) (testCase : TestCase) (generatedCodes : List JsObject) :
    TestCase :=
  { testCase with
    generatedCode := testCase.generatedCode ++
      generatedCodes.enum.map (fun p => toGeneratedCode (sv.newId p.1) p.2) }

/-- The 404 response of the ownership check. -/
def notFound : Failure :=
  ⟨404, "Test case not found", none, none⟩

/-- The 400 response of `POST /generate/code` when no summary was resolved. -/
def noValidSummaries : Failure :=
  ⟨400, "No valid summaries found for code generation", none, none⟩

/-- The route `POST /generate/code` for the authenticated user `userId`. -/
def runCodeStage (sv : Services) (db : Db) (userId : String) (req : CodeRequest) :
    StageResult (List JsObject) :=
  match req.testCaseId, req.summaryIds with
  | some testCaseId, some summaryIds =>
    if testCaseId = "" then
      ⟨.error ⟨400, "testCaseId and summaryIds array are required", none, none⟩, db, [], []⟩
    else
      match findById db testCaseId with
      | none => ⟨.error notFound, db, [], []⟩
      | some testCase =>
        if testCase.userId ≠ userId then ⟨.error notFound, db, [], []⟩
        else
          match generateCodes sv testCase summaryIds [] [] with
          | (.error error, prompts) =>
            ⟨.error ⟨500, "Failed to generate test code", some error.message, none⟩, db, prompts, []⟩
          | (.ok generatedCodes, prompts) =>
            if generatedCodes.length = 0 then ⟨.error noValidSummaries, db, prompts, []⟩
            else
              let doc := pushGeneratedCode sv testCase generatedCodes
              match sv.persist doc with
              | .error error =>
                ⟨.error ⟨500, "Failed to generate test code", some error.message, none⟩, db, prompts, []⟩
              | .ok _ => ⟨.ok generatedCodes, saved db doc, prompts, []⟩
  | _, _ => ⟨.error ⟨400, "testCaseId and summaryIds array are required", none, none⟩, db, [], []⟩

/-- The body of `POST /generate/pr` as the route reads it. -/
structure PrRequest where
  testCaseId : Option String
  generatedCodeIds : Option (List String)
deriving DecidableEq, Repr

/-- The 200 response of `POST /generate/pr`. -/
structure PrCreated where
  pullRequestUrl : String
  message : String
  filesCreated : Nat
deriving DecidableEq, Repr

/-- The artifacts `POST /generate/pr` resolves from `generatedCodeIds`. -/
def resolveCodes (testCase : TestCase) (generatedCodeIds : List String) : List GeneratedCode :=
  if generatedCodeIds.length > 0 then
    testCase.generatedCode.filter (fun code =>
      generatedCodeIds.contains code._id ||
      (match code.summaryId with
       | some summaryId => generatedCodeIds.contains summaryId
       | none => false))
  else testCase.generatedCode

/-- A stored artifact as `createPullRequest` reads it: the schema has no `setupInstructions`. -/
def GeneratedCode.toCodeData (code : GeneratedCode) : CodeData :=
  { filename := code.filename, code := code.code, framework := code.framework,
    language := code.language, setupInstructions := none }

/-- The `userMessage` the `catch` of `POST /generate/pr` derives from the error message. -/
def prUserMessage (message : String) : String :=
  if includes message "Permission denied" then
    "Permission denied. Please ensure you have write access to this repository."
  else if includes message "not found" then
    "Repository not found or not accessible."
  else if includes message "branch already exists" then
    "A similar branch already exists. Please try again."
  else if includes message "default branch" then
    "Could not determine the default branch of the repository."
  else "Failed to create pull request"

/-- The 500 response of the `catch` of `POST /generate/pr`. -/
def prFailure (error : JsError) : Failure :=
  ⟨500, prUserMessage error.message, some error.message,
    some "Check repository permissions and try again."⟩

/-- The 400 response of `POST /generate/pr` when no artifact was resolved. -/
def noGeneratedCode : Failure :=
  ⟨400, "No generated code found for PR creation", none, none⟩

/-- The route `POST /generate/pr` for the authenticated user `userId`. -/
def publishStage (sv : Services) (db : Db) (userId : String) (req : PrRequest) :
    StageResult PrCreated :=
  match req.testCaseId, req.generatedCodeIds with
  | some testCaseId, some generatedCodeIds =>
    if testCaseId = "" then
      ⟨.error ⟨400, "testCaseId and generatedCodeIds array are required", none, none⟩, db, [], []⟩
    else
      match findById db testCaseId with
      | none => ⟨.error notFound, db, [], []⟩
      | some testCase =>
        if testCase.userId ≠ userId then ⟨.error notFound, db, [], []⟩
        else
          let codes := resolveCodes testCase generatedCodeIds
          if codes.length = 0 then ⟨.error noGeneratedCode, db, [], []⟩
          else
            let run := createPullRequest sv.host sv.now testCase.repository.owner
              testCase.repository.name (codes.map GeneratedCode.toCodeData)
            match run.result with
            | .ok prUrl =>
              ⟨.ok ⟨prUrl, "Pull request created successfully", codes.length⟩, db, [], run.log⟩
            | .error error => ⟨.error (prFailure error), db, [], run.log⟩
  | _, _ =>
    ⟨.error ⟨400, "testCaseId and generatedCodeIds array are required", none, none⟩, db, [], []⟩

/-- The summaries the entries of `summaryIds` resolve to, one per entry that matches a summary
of the job, in request order. -/
def matchedSummaries (testCase : TestCase) (summaryIds : List String) : List Summary :=
  summaryIds.filterMap (fun summaryId => testCase.summaries.find? (summaryMatches summaryId))

/-- Modelled from the spec: the artifact the code stage returns for `summary` when `asked`
prompts were sent before: the object `generateTestCode` returns for it on the files of the job,
under the `summaryId` of the summary; none when the generation throws. -/
def artifactOf (sv : Services) (testCase : TestCase) (asked : Nat) (summary : Summary) :
    Option JsObject :=
  match (generateTestCode sv.codeModel sv.functionMatches asked testCase.files summary).1 with
  | .ok code => some (codeEntry summary code)
  | .error _ => none

/-- Modelled from the spec: the prompts the code stage sends for the summaries `matched`, one
after the other, when `asked` prompts were sent before. -/
def promptsOf (sv : Services) (testCase : TestCase) : List Summary → Nat → List CodePrompt
  | [], _ => []
  | summary :: rest, asked =>
    (generateTestCode sv.codeModel sv.functionMatches asked testCase.files summary).2 ++
      promptsOf sv testCase rest (asked + 1)

/-! ## routes/api.js : the summary stage -/

/-- The validators `testCaseSchema` declares: the enum of `status` and the enum of the
`priority` of a summary (an absent priority takes the default). -/
def schemaValid (doc : TestCase) : Bool :=
  ["pending", "processing", "completed", "failed"].contains doc.status &&
  doc.summaries.all (fun s =>
    match s.priority with
    | some priority => ["high", "medium", "low"].contains priority
    | none => true)

/-- The body of `POST /generate/summary` as the route reads it: `files` is `none` when absent
or not an array. -/
structure SummaryRequest where
  owner : String
  repo : String
  files : Option (List SourceFile)
deriving DecidableEq, Repr

/-- The 200 response of `POST /generate/summary`. -/
structure SummaryCreated where
  testCaseId : String
  summaries : List Summary
deriving DecidableEq, Repr

/-- What the summary stage did: the response sent and the collection after the call. -/
structure SummaryStageResult where
  response : Except Failure SummaryCreated
  db : Db

/-- The callback of `summaries.map` in `POST /generate/summary`, for the draft at position
`index`, and the subdocument the record stores for it.  A draft is a plain object without
`_id`; `routeClock index` is what `new Date().getTime()` returns if it is read there. -/
def toSummary (sv : Services) (routeClock : Nat → Nat) (index : Nat) (s : SummaryDraft) :
    Summary :=
  { _id := sv.newId index,
    id := some (orDefault (some s.id) (toString (routeClock index))),
    title := s.title,
    description := s.description,
    testType := s.testType,
    framework := s.framework,
    priority := some s.priority }

/-- The 500 response of the `catch` of `POST /generate/summary`. -/
def summaryFailure (error : JsError) : Failure :=
  ⟨500, "Failed to generate test summaries", some error.message, none⟩

/-- The route `POST /generate/summary` for the authenticated user `userId`: `model` and `clock`
are the generative backend and the clock of `generateTestSummaries`, `docId` the `_id` of the
document `new TestCase` builds. -/
def startSummaryStage (sv : Services) (model : List FileContext → SummariesReply)
    (clock routeClock : Nat → Nat) (docId : String) (db : Db) (userId : String)
    (req : SummaryRequest) : SummaryStageResult :=
  match req.files with
  | none => ⟨.error ⟨400, "Files array is required", none, none⟩, db⟩
  | some files =>
    if files.length = 0 then ⟨.error ⟨400, "Files array is required", none, none⟩, db⟩
    else
      let testCase : TestCase :=
        { _id := docId,
          userId := userId,
          repository := { owner := req.owner, name := req.repo,
                          fullName := req.owner ++ "/" ++ req.repo },
          files := files,
          summaries := [],
          generatedCode := [],
          status := "processing" }
      match sv.persist testCase with
      | .error error => ⟨.error (summaryFailure error), db⟩
      | .ok _ =>
        let summaries := generateTestSummaries model clock files
        let doc : TestCase :=
          { testCase with
            summaries := summaries.enum.map (fun p => toSummary sv routeClock p.1 p.2),
            status := "completed" }
        match sv.persist doc with
        | .error error => ⟨.error (summaryFailure error), db ++ [testCase]⟩
        | .ok _ => ⟨.ok ⟨docId, doc.summaries⟩, saved (db ++ [testCase]) doc⟩

/-- The number a list of decimal digit characters denotes. -/
def digitsValue (cs : List Char) : Nat :=
  cs.foldl (fun acc c => 10 * acc + (c.toNat - 48)) 0

/-- The id a parsed summary supplies: its `id` property when it is a non-empty string. -/
def suppliedId (summary : JsObject) : Option String :=
  match summary.get "id" with
  | some v => if v = "" then none else some v
  | none => none

/-- The ids the elements of a parsed array supply, in order. -/
def suppliedIds (items : List (Option JsObject)) : List String :=
  items.filterMap (fun item => item.bind suppliedId)

/-- The id `generateTestSummaries` synthesizes at clock reading `t` for the element at
`index`. -/
def syntheticId (t index : Nat) : String :=
  "test_" ++ toString t ++ "_" ++ toString index

/-- Modelled from the spec: the ids `generateTestSummaries` synthesizes for the elements of a
parsed array that supply none, from position `index` on and after `reads` readings of the
clock, in order. -/
def synthesizedIds (clock : Nat → Nat) : List (Option JsObject) → Nat → Nat → List String
  | [], _, _ => []
  | item :: rest, index, reads =>
    match item.bind suppliedId with
    | some _ => synthesizedIds clock rest (index + 1) reads
    | none => syntheticId (clock reads) index :: synthesizedIds clock rest (index + 1) (reads + 1)

/-! ## Sample inputs -/

/-- An artifact named `filename` with framework `jest`. -/
def sampleCode (filename : String) : CodeData :=
  { filename := some filename, code := some "test('ok', () => expect(1).toBe(1));",
    framework := some "jest", language := some "javascript", setupInstructions := none }

/-- Three artifacts. -/
def threeCodes : List CodeData :=
  [sampleCode "a.test.js", sampleCode "b.test.js", sampleCode "c.test.js"]

/-- A host on which everything succeeds, except the write of `tests/b.test.js`. -/
def flakyHost : Host := fun _ c =>
  match c with
  | .reposGet _ _ => .ok "main"
  | .getRef _ _ _ => .ok "abc123"
  | .createRef _ _ _ _ => .ok ""
  | .putFile _ _ path _ _ _ =>
    if path = "tests/b.test.js" then .error ⟨"Conflict", some 409⟩ else .ok ""
  | .pullsCreate _ _ _ _ _ _ => .ok "https://github.com/o/r/pull/1"

/-- A host like `flakyHost` on which the README write fails too. -/
def noReadmeHost : Host := fun hist c =>
  if c.isReadme then .error ⟨"Conflict", some 409⟩ else flakyHost hist c

/-- A host of a repository without `main` or `master`: every head lookup fails. -/
def noBranchHost : Host := fun _ c =>
  match c with
  | .reposGet _ _ => .error ⟨"Server Error", some 500⟩
  | .getRef _ _ _ => .error ⟨"Not Found", some 404⟩
  | _ => .ok ""

/-- A host that refuses every file write. -/
def readOnlyHost : Host := fun _ c =>
  match c with
  | .reposGet _ _ => .ok "main"
  | .getRef _ _ _ => .ok "abc123"
  | .createRef _ _ _ _ => .ok ""
  | .putFile _ _ _ _ _ _ => .error ⟨"Forbidden", some 403⟩
  | .pullsCreate _ _ _ _ _ _ => .ok "https://github.com/o/r/pull/1"

/-- A host on which the branch name is already taken. -/
def takenHost : Host := fun _ c =>
  match c with
  | .reposGet _ _ => .ok "main"
  | .getRef _ _ _ => .ok "abc123"
  | .createRef _ _ _ _ => .error ⟨"Reference already exists", some 422⟩
  | _ => .ok ""

/-- A job of `alice` on one JavaScript file, with two summaries. -/
def sampleJob : TestCase :=
  { _id := "64f000000000000000000001",
    userId := "alice",
    repository := { owner := "o", name := "r", fullName := "o/r" },
    files := [{ path := "app.js", content := "function add(a,b)\x7breturn a+b;\x7d",
                language := "javascript" }],
    summaries :=
      [{ _id := "64f0000000000000000000a1", id := some "s1", title := some "Unit tests",
         description := some "Checks add.", testType := some "unit", framework := some "jest",
         priority := some "high" },
       { _id := "64f0000000000000000000a2", id := some "s2", title := some "Edge cases",
         description := some "Checks add on bounds.", testType := some "unit",
         framework := some "jest", priority := some "medium" }],
    generatedCode := [],
    status := "completed" }

/-- A collection holding `sampleJob` alone. -/
def sampleDb : Db := [sampleJob]

/-- Collaborators with an unavailable generative backend: every generation falls back. -/
def offlineServices : Services :=
  { codeModel := fun _ _ => .raised ⟨"503 Service Unavailable", none⟩,
    functionMatches := fun _ => ["add"],
    host := flakyHost,
    now := 7,
    persist := fun _ => .ok (),
    newId := fun k => "64f0000000000000000000c" ++ toString k }

/-- Collaborators whose generative backend returns an object with a `summaryId` property. -/
def echoServices : Services :=
  { offlineServices with
    codeModel := fun _ _ => .object
      [("code", "test('add', () => expect(add(1, 2)).toBe(3));"),
       ("filename", "app.test.js"), ("framework", "jest"), ("language", "javascript"),
       ("summaryId", "bogus")] }

/-- A stored artifact of summary `summaryId` named `filename`. -/
def storedCode (id summaryId filename : String) : GeneratedCode :=
  { _id := id, summaryId := some summaryId,
    code := some "test('ok', () => expect(1).toBe(1));", filename := some filename,
    framework := some "jest", language := some "javascript" }

/-- The job `sampleJob` after three artifacts were generated. -/
def codedJob : TestCase :=
  { sampleJob with
    generatedCode :=
      [storedCode "64f0000000000000000000c0" "s1" "a.test.js",
       storedCode "64f0000000000000000000c1" "s2" "b.test.js",
       storedCode "64f0000000000000000000c2" "s1" "c.test.js"] }

/-- A collection holding `codedJob` alone. -/
def codedDb : Db := [codedJob]

/-- Collaborators whose remote host answers 422 to the branch creation. -/
def takenServices : Services :=
  { offlineServices with host := takenHost }

/-- Collaborators whose remote host answers 403 to every file write. -/
def readOnlyServices : Services :=
  { offlineServices with host := readOnlyHost }

/-- A host that answers 404 to the pull-request creation. -/
def noPullHost : Host := fun _ c =>
  match c with
  | .reposGet _ _ => .ok "main"
  | .getRef _ _ _ => .ok "abc123"
  | .pullsCreate _ _ _ _ _ _ => .error ⟨"Not Found", some 404⟩
  | _ => .ok ""

/-- Collaborators whose store enforces the validators of the schema. -/
def strictServices : Services :=
  { offlineServices with
    persist := fun doc =>
      if schemaValid doc then .ok ()
      else .error ⟨"TestCase validation failed", none⟩ }

/-- Collaborators like `offlineServices` whose store names the subdocuments it creates from
`d0` on. -/
def laterServices : Services :=
  { offlineServices with newId := fun k => "64f0000000000000000000d" ++ toString k }

/-- A backend whose array holds one summary with a priority outside the enum. -/
def criticalModel : List FileContext → SummariesReply := fun _ =>
  .array [some [("id", "t1"), ("title", "Adds numbers"), ("testType", "unit"),
                ("framework", "jest"), ("priority", "critical")]]

/-- A backend whose array holds two summaries with the same id. -/
def twinModel : List FileContext → SummariesReply := fun _ =>
  .array [some [("id", "t1"), ("title", "Adds numbers"), ("priority", "high")],
          some [("id", "t1"), ("title", "Adds negative numbers"), ("priority", "low")]]

/-- A request of the summary stage on one JavaScript file. -/
def sampleSummaryRequest : SummaryRequest :=
  { owner := "o", repo := "r",
    files := some [{ path := "app.js", content := "function add(a,b)\x7breturn a+b;\x7d",
                     language := "javascript" }] }

/-- A summary that pins `jest`. -/
def sampleSummary : Summary :=
  { _id := "64f0000000000000000000a1", id := some "s1", title := some "Unit tests",
    description := some "Checks add.", testType := some "unit", framework := some "jest",
    priority := some "high" }

/-- A JavaScript source file. -/
def sampleFile : SourceFile :=
  { path := "src/app.js", content := "function add(a,b)\x7breturn a+b;\x7d",
    language := "javascript" }

/-- A backend whose array holds one summary with an id that looks like a synthesized one and
one summary without id. -/
def lookalikeModel : List FileContext → SummariesReply := fun _ =>
  .array [some [("id", "test_999_0"), ("title", "Adds numbers"), ("priority", "high")],
          some [("title", "Adds negative numbers"), ("priority", "low")]]

/-- A backend whose array holds one summary with the id `test_5_1` and one summary without
id. -/
def collidingModel : List FileContext → SummariesReply := fun _ =>
  .array [some [("id", "test_5_1")], some [("title", "B")]]

/-! ## Lemmas on the publication protocol -/


theorem testMessage_ne_readme (codeData : CodeData) : testMessage codeData ≠ readmeMessage := by
  intro h
  have h2 := congrArg (fun s : String => s.data.take 22) h
  simp only [testMessage, readmeMessage, String.data_append] at h2
  rw [List.take_append_of_le_length (by decide)] at h2
  exact absurd h2 (by decide)

@[simp] theorem isTestWrite_writeCall (owner repo branchName : String) (codeData : CodeData)
    (code : String) : (writeCall owner repo branchName codeData code).isTestWrite = true := by
  simp [writeCall, Call.isTestWrite, testMessage_ne_readme]

@[simp] theorem path_writeCall (owner repo branchName : String) (codeData : CodeData)
    (code : String) : (writeCall owner repo branchName codeData code).path = testPath codeData :=
  rfl

theorem commitFiles_spec (host : Host) (owner repo branchName : String) :
    ∀ (codes : List CodeData) (log : List Event) (created : List String),
      ∃ evs : List Event,
        (commitFiles host owner repo branchName codes log created).1 = log ++ evs ∧
        calls evs = writeCalls owner repo branchName codes ∧
        (commitFiles host owner repo branchName codes log created).2 =
          created ++ committedPaths evs := by
  intro codes
  induction codes with
  | nil =>
    intro log created
    exact ⟨[], by simp [commitFiles, calls, writeCalls, committedPaths]⟩
  | cons c cs ih =>
    intro log created
    cases hc : c.code with
    | none =>
      obtain ⟨evs, h1, h2, h3⟩ := ih log created
      refine ⟨evs, ?_, ?_, ?_⟩
      · simp [commitFiles, hc, h1]
      · simp [writeCalls, hc, h2]
      · simp [commitFiles, hc, h3]
    | some code =>
      cases hr : host (log.map Event.call) (writeCall owner repo branchName c code) with
      | error e =>
        obtain ⟨evs, h1, h2, h3⟩ :=
          ih (log ++ [⟨writeCall owner repo branchName c code, .error e⟩]) created
        refine ⟨⟨writeCall owner repo branchName c code, .error e⟩ :: evs, ?_, ?_, ?_⟩
        · simp [commitFiles, hc, perform, hr, h1]
        · simp [writeCalls, hc, calls] at h2 ⊢
          exact h2
        · simp [commitFiles, hc, perform, hr, h3, committedPaths, Event.ok]
      | ok v =>
        obtain ⟨evs, h1, h2, h3⟩ :=
          ih (log ++ [⟨writeCall owner repo branchName c code, .ok v⟩])
            (created ++ [testPath c])
        refine ⟨⟨writeCall owner repo branchName c code, .ok v⟩ :: evs, ?_, ?_, ?_⟩
        · simp [commitFiles, hc, perform, hr, h1]
        · simp [writeCalls, hc, calls] at h2 ⊢
          exact h2
        · simp [commitFiles, hc, perform, hr, h3, committedPaths, Event.ok]


/-- The result of Step 6 for the response `pr` of the host. -/
theorem publishFiles_eq (host : Host) (owner repo branchName base : String)
    (codes : List CodeData) (log : List Event) (created : List String) :
    publishFiles host owner repo branchName base codes log created =
      ((match host (calls log ++ [readmeCall owner repo branchName created codes])
            (prCall owner repo branchName base created codes) with
        | .ok url => .ok url
        | .error e => .error ⟨"Failed to create pull request: " ++ e.message, none⟩),
       log ++ [⟨readmeCall owner repo branchName created codes,
                host (calls log) (readmeCall owner repo branchName created codes)⟩,
               ⟨prCall owner repo branchName base created codes,
                host (calls log ++ [readmeCall owner repo branchName created codes])
                  (prCall owner repo branchName base created codes)⟩]) := by
  simp only [publishFiles, perform, calls, List.map_append, List.map_cons, List.map_nil]
  split <;> rename_i h <;> simp only [Prod.mk.injEq] at h <;> obtain ⟨h1, h2⟩ := h <;>
    subst h2 <;> simp [h1]


theorem rethrow_plain (owner repo message : String) :
    rethrow owner repo ⟨message, none⟩ = apiError message := by
  simp [rethrow, apiError]

/-- Shape of Steps 3 to 6. -/
theorem fromSha_shape (host : Host) (now : Nat) (owner repo : String) (codes : List CodeData)
    (base sha : String) (log : List Event) :
    (∃ e, host (calls log) (.createRef owner repo ("refs/heads/" ++ branchNameAt now) sha)
          = .error e ∧
        fromSha host now owner repo codes base sha log =
          (.error ⟨"Failed to create branch: " ++ e.message, none⟩,
           log ++ [⟨.createRef owner repo ("refs/heads/" ++ branchNameAt now) sha, .error e⟩])) ∨
    (∃ v evs, host (calls log) (.createRef owner repo ("refs/heads/" ++ branchNameAt now) sha)
          = .ok v ∧
        calls evs = writeCalls owner repo (branchNameAt now) codes ∧
        ((committedPaths evs = [] ∧
          fromSha host now owner repo codes base sha log =
            (.error ⟨"Failed to create any test files", none⟩,
             log ++ [⟨.createRef owner repo ("refs/heads/" ++ branchNameAt now) sha, .ok v⟩]
               ++ evs)) ∨
         (committedPaths evs ≠ [] ∧
          fromSha host now owner repo codes base sha log =
            publishFiles host owner repo (branchNameAt now) base codes
              (log ++ [⟨.createRef owner repo ("refs/heads/" ++ branchNameAt now) sha, .ok v⟩]
                ++ evs) (committedPaths evs)))) := by
  cases hcr : host (calls log) (.createRef owner repo ("refs/heads/" ++ branchNameAt now) sha) with
  | error e =>
    left
    refine ⟨e, rfl, ?_⟩
    simp only [calls] at hcr
    simp [fromSha, perform, hcr]
  | ok v =>
    right
    obtain ⟨evs, h1, h2, h3⟩ := commitFiles_spec host owner repo (branchNameAt now) codes
      (log ++ [⟨.createRef owner repo ("refs/heads/" ++ branchNameAt now) sha, .ok v⟩]) []
    refine ⟨v, evs, rfl, h2, ?_⟩
    simp only [calls] at hcr
    simp only [List.nil_append] at h3
    have hcf : commitFiles host owner repo (branchNameAt now) codes
        (log ++ [⟨.createRef owner repo ("refs/heads/" ++ branchNameAt now) sha, .ok v⟩]) [] =
        (log ++ [⟨.createRef owner repo ("refs/heads/" ++ branchNameAt now) sha, .ok v⟩] ++ evs,
         committedPaths evs) := Prod.ext h1 h3
    by_cases hz : committedPaths evs = []
    · left
      refine ⟨hz, ?_⟩
      simp [fromSha, perform, hcr, hcf, hz]
    · right
      refine ⟨hz, ?_⟩
      simp [fromSha, perform, hcr, hcf, hz]



/-- Shape of the end of a run, from the branch creation on. -/
theorem tail_shape (host : Host) (now : Nat) (owner repo : String) (codes : List CodeData)
    (base sha : String) (pre : List Event) (run : Run)
    (hrun : run =
      match fromSha host now owner repo codes base sha pre with
      | (.ok htmlUrl, log) => ⟨.ok htmlUrl, log⟩
      | (.error error, log) => ⟨.error (rethrow owner repo error), log⟩) :
      ((∃ e, host (calls pre) (branchCall now owner repo sha) = .error e ∧
        run.result =
          .error (apiError ("Failed to create branch: " ++ e.message)) ∧
        run.log =
          pre ++ [⟨branchCall now owner repo sha, .error e⟩]) ∨
       (∃ v evs, host (calls pre) (branchCall now owner repo sha) = .ok v ∧
        calls evs = writeCalls owner repo (branchNameAt now) codes ∧
        ((committedPaths evs = [] ∧
          run.result =
            .error (apiError "Failed to create any test files") ∧
          run.log =
            pre ++ [⟨branchCall now owner repo sha, .ok v⟩] ++ evs) ∨
         (committedPaths evs ≠ [] ∧ ∃ rd pr,
          rd = host (calls (pre ++ [⟨branchCall now owner repo sha, .ok v⟩] ++ evs))
            (readmeCall owner repo (branchNameAt now) (committedPaths evs) codes) ∧
          pr = host (calls (pre ++ [⟨branchCall now owner repo sha, .ok v⟩] ++ evs) ++
              [readmeCall owner repo (branchNameAt now) (committedPaths evs) codes])
            (prCall owner repo (branchNameAt now) base (committedPaths evs) codes) ∧
          run.result = prResult pr ∧
          run.log =
            pre ++ [⟨branchCall now owner repo sha, .ok v⟩] ++ evs ++
              [⟨readmeCall owner repo (branchNameAt now) (committedPaths evs) codes, rd⟩,
               ⟨prCall owner repo (branchNameAt now) base (committedPaths evs) codes, pr⟩])))) := by
  simp only [branchCall]
  rcases fromSha_shape host now owner repo codes base sha pre with ⟨e, he, hf⟩ | ⟨v, evs, hv, hc, h⟩
  · left
    refine ⟨e, he, ?_, ?_⟩ <;> simp [hrun, hf, rethrow_plain]
  · right
    refine ⟨v, evs, hv, hc, ?_⟩
    rcases h with ⟨hz, hf⟩ | ⟨hz, hf⟩
    · left
      refine ⟨hz, ?_, ?_⟩ <;> simp [hrun, hf, rethrow_plain]
    · right
      refine ⟨hz, _, _, rfl, rfl, ?_, ?_⟩
      · rw [hrun, hf, publishFiles_eq]
        cases host (calls (pre ++ [⟨.createRef owner repo ("refs/heads/" ++ branchNameAt now) sha,
            .ok v⟩] ++ evs) ++ [readmeCall owner repo (branchNameAt now) (committedPaths evs) codes])
          (prCall owner repo (branchNameAt now) base (committedPaths evs) codes) <;>
          simp [prResult, rethrow_plain]
      · rw [hrun, hf, publishFiles_eq]
        cases host (calls (pre ++ [⟨.createRef owner repo ("refs/heads/" ++ branchNameAt now) sha,
            .ok v⟩] ++ evs) ++ [readmeCall owner repo (branchNameAt now) (committedPaths evs) codes])
          (prCall owner repo (branchNameAt now) base (committedPaths evs) codes) <;>
          simp

/-- Shape of a run of `createPullRequest`: the lookups fail, or a branch `base` resolves at
head `sha` and the run ends at the branch creation, at the empty commit set, or at the pull
request. -/
theorem run_shape (host : Host) (now : Nat) (owner repo : String) (codes : List CodeData) :
    (∃ e2 e3,
      host [.reposGet owner repo] (lookupCall host owner repo) = .error e2 ∧
      host [.reposGet owner repo, lookupCall host owner repo] (masterCall owner repo) = .error e3 ∧
      (createPullRequest host now owner repo codes).result =
        .error (apiError "Could not find default branch. Tried 'main' and 'master'.") ∧
      (createPullRequest host now owner repo codes).log =
        [⟨.reposGet owner repo, host [] (.reposGet owner repo)⟩,
         ⟨lookupCall host owner repo, .error e2⟩, ⟨masterCall owner repo, .error e3⟩]) ∨
    (∃ pre base sha,
      ((base = resolvedBranch host owner repo ∧
        host [.reposGet owner repo] (lookupCall host owner repo) = .ok sha ∧
        pre = [⟨.reposGet owner repo, host [] (.reposGet owner repo)⟩,
               ⟨lookupCall host owner repo, .ok sha⟩]) ∨
       (∃ e2, base = "master" ∧
        host [.reposGet owner repo] (lookupCall host owner repo) = .error e2 ∧
        host [.reposGet owner repo, lookupCall host owner repo] (masterCall owner repo) = .ok sha ∧
        pre = [⟨.reposGet owner repo, host [] (.reposGet owner repo)⟩,
               ⟨lookupCall host owner repo, .error e2⟩, ⟨masterCall owner repo, .ok sha⟩])) ∧
      ((∃ e, host (calls pre) (branchCall now owner repo sha) = .error e ∧
        (createPullRequest host now owner repo codes).result =
          .error (apiError ("Failed to create branch: " ++ e.message)) ∧
        (createPullRequest host now owner repo codes).log =
          pre ++ [⟨branchCall now owner repo sha, .error e⟩]) ∨
       (∃ v evs, host (calls pre) (branchCall now owner repo sha) = .ok v ∧
        calls evs = writeCalls owner repo (branchNameAt now) codes ∧
        ((committedPaths evs = [] ∧
          (createPullRequest host now owner repo codes).result =
            .error (apiError "Failed to create any test files") ∧
          (createPullRequest host now owner repo codes).log =
            pre ++ [⟨branchCall now owner repo sha, .ok v⟩] ++ evs) ∨
         (committedPaths evs ≠ [] ∧ ∃ rd pr,
          rd = host (calls (pre ++ [⟨branchCall now owner repo sha, .ok v⟩] ++ evs))
            (readmeCall owner repo (branchNameAt now) (committedPaths evs) codes) ∧
          pr = host (calls (pre ++ [⟨branchCall now owner repo sha, .ok v⟩] ++ evs) ++
              [readmeCall owner repo (branchNameAt now) (committedPaths evs) codes])
            (prCall owner repo (branchNameAt now) base (committedPaths evs) codes) ∧
          (createPullRequest host now owner repo codes).result = prResult pr ∧
          (createPullRequest host now owner repo codes).log =
            pre ++ [⟨branchCall now owner repo sha, .ok v⟩] ++ evs ++
              [⟨readmeCall owner repo (branchNameAt now) (committedPaths evs) codes, rd⟩,
               ⟨prCall owner repo (branchNameAt now) base (committedPaths evs) codes, pr⟩]))))) := by
  have hdef : (match host [] (.reposGet owner repo) with
      | .ok branch => branch
      | .error _ => "main") = resolvedBranch host owner repo := rfl
  cases h2 : host [.reposGet owner repo] (lookupCall host owner repo) with
  | ok sha =>
    right
    refine ⟨_, resolvedBranch host owner repo, sha, Or.inl ⟨rfl, rfl, rfl⟩, ?_⟩
    apply tail_shape
    simp only [lookupCall] at h2
    simp [createPullRequest, tryPullRequest, perform, hdef, h2, lookupCall]
  | error e2 =>
    cases h3 : host [.reposGet owner repo, lookupCall host owner repo] (masterCall owner repo) with
    | ok sha =>
      right
      refine ⟨_, "master", sha, Or.inr ⟨e2, rfl, rfl, rfl, rfl⟩, ?_⟩
      apply tail_shape
      simp only [lookupCall, masterCall] at h2 h3
      simp [createPullRequest, tryPullRequest, perform, hdef, h2, h3, lookupCall, masterCall]
    | error e3 =>
      left
      simp only [lookupCall, masterCall] at h2 h3
      refine ⟨e2, e3, rfl, rfl, ?_, ?_⟩ <;>
        simp [createPullRequest, tryPullRequest, perform, hdef, h2, h3, lookupCall, masterCall,
          rethrow_plain]


@[simp] theorem committedPaths_append (a b : List Event) :
    committedPaths (a ++ b) = committedPaths a ++ committedPaths b := by
  simp [committedPaths]

theorem committedPaths_eq_nil_iff (evs : List Event) :
    committedPaths evs = [] ↔ ∀ e ∈ evs, e.call.isTestWrite = true → e.ok = false := by
  simp [committedPaths, List.filter_eq_nil_iff]

theorem mem_writeCalls {owner repo branchName : String} {codes : List CodeData} {c : Call}
    (h : c ∈ writeCalls owner repo branchName codes) :
    ∃ codeData code, codeData ∈ codes ∧ codeData.code = some code ∧
      c = writeCall owner repo branchName codeData code := by
  simp only [writeCalls, List.mem_filterMap, Option.map_eq_some'] at h
  obtain ⟨codeData, hmem, code, hcode, rfl⟩ := h
  exact ⟨codeData, code, hmem, hcode, rfl⟩

theorem call_of_written {owner repo branchName : String} {codes : List CodeData}
    {evs : List Event} (hc : calls evs = writeCalls owner repo branchName codes)
    {e : Event} (he : e ∈ evs) :
    ∃ codeData code, codeData ∈ codes ∧ codeData.code = some code ∧
      e.call = writeCall owner repo branchName codeData code := by
  apply mem_writeCalls
  rw [← hc]
  exact List.mem_map_of_mem Event.call he

/-- C3: when the branch was created and no artifact write succeeds, the call fails with the
`Failed to create any test files` error and neither the README write nor the pull-request
creation is attempted. -/
theorem createPullRequest_no_empty_pr (host : Host) (now : Nat) (owner repo : String)
    (codes : List CodeData)
    (hbranch : ∃ e ∈ (createPullRequest host now owner repo codes).log,
      e.call.isCreateRef = true ∧ e.ok = true)
    (hzero : ∀ e ∈ (createPullRequest host now owner repo codes).log,
      e.call.isTestWrite = true → e.ok = false) :
    (createPullRequest host now owner repo codes).result =
      .error ⟨"GitHub API error: Failed to create any test files", none⟩ ∧
    ∀ e ∈ (createPullRequest host now owner repo codes).log,
      e.call.isReadme = false ∧ e.call.isPullsCreate = false := by
  rcases run_shape host now owner repo codes with
    ⟨e2, e3, -, -, hres, hlog⟩ | ⟨pre, base, sha, hpre, htail⟩
  · rw [hlog] at hbranch
    simp [Call.isCreateRef, lookupCall, masterCall] at hbranch
  · rcases htail with ⟨e, -, hres, hlog⟩ | ⟨v, evs, -, hc, ⟨hz, hres, hlog⟩ | ⟨hz, rd, pr, -, -, hres, hlog⟩⟩
    · rw [hlog] at hbranch
      rcases hpre with ⟨-, -, rfl⟩ | ⟨e2, -, -, -, rfl⟩ <;>
        simp [Call.isCreateRef, lookupCall, masterCall, branchCall, Event.ok] at hbranch
    · refine ⟨by rw [hres]; rfl, ?_⟩
      intro e he
      rw [hlog] at he
      simp only [List.mem_append, List.mem_singleton] at he
      rcases he with (he | rfl) | he
      · rcases hpre with ⟨-, -, rfl⟩ | ⟨e2, -, -, -, rfl⟩ <;>
          simp only [List.mem_cons, List.mem_singleton, List.not_mem_nil, or_false] at he <;>
          rcases he with rfl | rfl | rfl <;> simp [Call.isReadme, Call.isPullsCreate, lookupCall, masterCall]
      · simp [Call.isReadme, Call.isPullsCreate, branchCall]
      · obtain ⟨codeData, code, -, -, hcall⟩ := call_of_written hc he
        simp [hcall, writeCall, Call.isReadme, Call.isPullsCreate, testMessage_ne_readme]
    · exfalso
      apply hz
      rw [committedPaths_eq_nil_iff]
      intro e he
      apply hzero
      rw [hlog]
      simp [he]

theorem filter_writeCalls (owner repo branchName : String) (codes : List CodeData) :
    (writeCalls owner repo branchName codes).filter Call.isTestWrite =
      writeCalls owner repo branchName codes := by
  rw [List.filter_eq_self]
  intro c hc
  obtain ⟨codeData, code, -, -, rfl⟩ := mem_writeCalls hc
  simp

theorem committedPaths_sublist {owner repo branchName : String} {codes : List CodeData}
    {evs : List Event} (hc : calls evs = writeCalls owner repo branchName codes) :
    List.Sublist (committedPaths evs) (codes.map testPath) := by
  have h1 : List.Sublist (committedPaths evs) ((calls evs).map Call.path) := by
    simp only [committedPaths, calls, List.map_map]
    exact List.Sublist.map _ (List.filter_sublist _)
  have h2 : List.Sublist ((writeCalls owner repo branchName codes).map Call.path)
      (codes.map testPath) := by
    clear hc h1
    induction codes with
    | nil => simp [writeCalls]
    | cons c cs ih =>
      cases hcode : c.code with
      | none =>
        simp only [writeCalls, List.filterMap_cons, hcode, Option.map_none', List.map_cons]
        exact List.Sublist.cons _ ih
      | some code =>
        simp only [writeCalls, List.filterMap_cons, hcode, Option.map_some', List.map_cons,
          path_writeCall]
        exact List.Sublist.cons₂ _ ih
  rw [hc] at h1
  exact h1.trans h2

theorem committedPaths_cons_of_not (e : Event) (l : List Event)
    (h : e.call.isTestWrite = false) : committedPaths (e :: l) = committedPaths l := by
  simp [committedPaths, h]

@[simp] theorem committedPaths_nil : committedPaths [] = [] := rfl

@[simp] theorem isTestWrite_readmeCall (owner repo branchName : String) (created : List String)
    (codes : List CodeData) :
    (readmeCall owner repo branchName created codes).isTestWrite = false := by
  simp [readmeCall, Call.isTestWrite]

@[simp] theorem isTestWrite_prCall (owner repo branchName base : String) (created : List String)
    (codes : List CodeData) :
    (prCall owner repo branchName base created codes).isTestWrite = false := rfl

@[simp] theorem isTestWrite_branchCall (now : Nat) (owner repo sha : String) :
    (branchCall now owner repo sha).isTestWrite = false := rfl

@[simp] theorem isPullsCreate_readmeCall (owner repo branchName : String)
    (created : List String) (codes : List CodeData) :
    (readmeCall owner repo branchName created codes).isPullsCreate = false := rfl

@[simp] theorem isPullsCreate_prCall (owner repo branchName base : String)
    (created : List String) (codes : List CodeData) :
    (prCall owner repo branchName base created codes).isPullsCreate = true := rfl

@[simp] theorem isPullsCreate_branchCall (now : Nat) (owner repo sha : String) :
    (branchCall now owner repo sha).isPullsCreate = false := rfl

/-- C1: when at least one artifact write succeeds and the host accepts the pull request, the
call returns the URL of the pull request; the last call opens it with a body that states the
number of accepted writes and lists their paths; the artifact writes are one per artifact
that has code, in order, each at `tests/<filename>`; so the listed paths are a subsequence of
the paths of the artifacts. -/
theorem createPullRequest_partial_commit (host : Host) (now : Nat) (owner repo : String)
    (codes : List CodeData)
    (hwrite : ∃ e ∈ (createPullRequest host now owner repo codes).log,
      e.call.isTestWrite = true ∧ e.ok = true)
    (hpr : ∀ e ∈ (createPullRequest host now owner repo codes).log,
      e.call.isPullsCreate = true → e.ok = true) :
    ∃ url base,
      (createPullRequest host now owner repo codes).result = .ok url ∧
      (createPullRequest host now owner repo codes).log.getLast? =
        some ⟨.pullsCreate owner repo prTitle (branchNameAt now) base
          (prBodyHead ++
            toString (committedPaths (createPullRequest host now owner repo codes).log).length ++
            prBodyMid ++
            String.intercalate "\n"
              ((committedPaths (createPullRequest host now owner repo codes).log).map prBullet) ++
            prBodyTail codes), .ok url⟩ ∧
      (calls (createPullRequest host now owner repo codes).log).filter Call.isPullsCreate =
        [.pullsCreate owner repo prTitle (branchNameAt now) base
          (prBody (committedPaths (createPullRequest host now owner repo codes).log) codes)] ∧
      (calls (createPullRequest host now owner repo codes).log).filter Call.isTestWrite =
        writeCalls owner repo (branchNameAt now) codes ∧
      List.Sublist (committedPaths (createPullRequest host now owner repo codes).log)
        (codes.map testPath) := by
  rcases run_shape host now owner repo codes with
    ⟨e2, e3, -, -, hres, hlog⟩ | ⟨pre, base, sha, hpre, htail⟩
  · rw [hlog] at hwrite
    simp [Call.isTestWrite, lookupCall, masterCall] at hwrite
  · have hpre1 : ∀ e ∈ pre, e.call.isTestWrite = false ∧ e.call.isPullsCreate = false := by
      rcases hpre with ⟨-, -, rfl⟩ | ⟨e2, -, -, -, rfl⟩ <;>
        simp [Call.isTestWrite, Call.isPullsCreate, lookupCall, masterCall]
    have hbr : ∀ r, (branchCall now owner repo r).isTestWrite = false ∧
        (branchCall now owner repo r).isPullsCreate = false := by
      intro r
      simp [branchCall, Call.isTestWrite, Call.isPullsCreate]
    rcases htail with ⟨e, -, hres, hlog⟩ | ⟨v, evs, -, hc, ⟨hz, hres, hlog⟩ | ⟨hz, rd, pr, -, -, hres, hlog⟩⟩
    · exfalso
      obtain ⟨e, he, ht, -⟩ := hwrite
      rw [hlog] at he
      simp only [List.mem_append, List.mem_singleton] at he
      rcases he with he | rfl
      · simp [(hpre1 e he).1] at ht
      · simp [(hbr sha).1] at ht
    · exfalso
      obtain ⟨e, he, ht, hok⟩ := hwrite
      rw [hlog] at he
      simp only [List.mem_append, List.mem_singleton] at he
      rcases he with (he | rfl) | he
      · simp [(hpre1 e he).1] at ht
      · simp [(hbr sha).1] at ht
      · rw [committedPaths_eq_nil_iff] at hz
        simp [hz e he ht] at hok
    · have hcp : committedPaths (createPullRequest host now owner repo codes).log =
          committedPaths evs := by
        rw [hlog]
        have h0 : committedPaths pre = [] := by
          rw [committedPaths_eq_nil_iff]
          intro e he ht
          simp [(hpre1 e he).1] at ht
        simp only [committedPaths_append, h0, List.nil_append]
        rw [committedPaths_cons_of_not _ _ (by simp), committedPaths_cons_of_not _ _ (by simp),
          committedPaths_cons_of_not _ _ (by simp)]
        simp
      obtain ⟨url, rfl⟩ : ∃ url, pr = .ok url := by
        have := hpr ⟨prCall owner repo (branchNameAt now) base (committedPaths evs) codes, pr⟩
          (by rw [hlog]; simp) (by simp [prCall, Call.isPullsCreate])
        cases pr with
        | ok url => exact ⟨url, rfl⟩
        | error e => simp [Event.ok] at this
      refine ⟨url, base, by rw [hres]; rfl, ?_, ?_, ?_, ?_⟩
      · rw [hcp, hlog, List.getLast?_append_of_ne_nil _ (by simp)]
        rfl
      · rw [hcp, hlog]
        have h0 : (calls pre).filter Call.isPullsCreate = [] := by
          simp only [calls, List.filter_eq_nil_iff, List.mem_map]
          rintro c ⟨e, he, rfl⟩
          simp [(hpre1 e he).2]
        have h1 : (calls evs).filter Call.isPullsCreate = [] := by
          rw [hc, List.filter_eq_nil_iff]
          intro c hcm
          obtain ⟨codeData, code, -, -, rfl⟩ := mem_writeCalls hcm
          simp [writeCall, Call.isPullsCreate]
        simp only [calls, List.map_append, List.filter_append] at h0 h1 ⊢
        simp [h0, h1]
        rfl
      · rw [hlog]
        have h0 : (calls pre).filter Call.isTestWrite = [] := by
          simp only [calls, List.filter_eq_nil_iff, List.mem_map]
          rintro c ⟨e, he, rfl⟩
          simp [(hpre1 e he).1]
        have h1 := filter_writeCalls owner repo (branchNameAt now) codes
        rw [← hc] at h1
        simp only [calls, List.map_append, List.filter_append] at h0 h1 ⊢
        simp [h0, h1]
        exact hc
      · rw [hcp]
        exact committedPaths_sublist hc

theorem noDefaultBranch_message :
    includes "GitHub API error: Could not find default branch. Tried 'main' and 'master'."
        "default branch" = true ∧
    prUserMessage "GitHub API error: Could not find default branch. Tried 'main' and 'master'." =
      "Could not determine the default branch of the repository." := by
  decide

/-- C2: when the head lookup of the resolved branch fails and the lookup of `heads/master`
fails too, the run makes exactly the metadata read and the two lookups (no branch ref is
created, no file is written, no pull request is opened) and fails with an error whose message
contains `default branch`; the `/generate/pr` route then answers 500 with the message
`Could not determine the default branch of the repository.`. -/
theorem createPullRequest_no_default_branch (host : Host) (now : Nat) (owner repo : String)
    (codes : List CodeData) (e2 e3 : JsError)
    (h2 : host [.reposGet owner repo] (lookupCall host owner repo) = .error e2)
    (h3 : host [.reposGet owner repo, lookupCall host owner repo] (masterCall owner repo)
      = .error e3) :
    calls (createPullRequest host now owner repo codes).log =
      [.reposGet owner repo, lookupCall host owner repo, masterCall owner repo] ∧
    (∀ c ∈ calls (createPullRequest host now owner repo codes).log,
      c.isCreateRef = false ∧ c.isPutFile = false ∧ c.isPullsCreate = false) ∧
    (createPullRequest host now owner repo codes).result =
      .error ⟨"GitHub API error: Could not find default branch. Tried 'main' and 'master'.",
        none⟩ ∧
    includes "GitHub API error: Could not find default branch. Tried 'main' and 'master'."
      "default branch" = true ∧
    (∀ (sv : Services) (db : Db) (userId testCaseId : String) (ids : List String)
        (testCase : TestCase),
      sv.host = host → sv.now = now → testCaseId ≠ "" →
      findById db testCaseId = some testCase → testCase.userId = userId →
      testCase.repository.owner = owner → testCase.repository.name = repo →
      (resolveCodes testCase ids).map GeneratedCode.toCodeData = codes → codes ≠ [] →
      (publishStage sv db userId ⟨some testCaseId, some ids⟩).response =
        .error ⟨500, "Could not determine the default branch of the repository.",
          some "GitHub API error: Could not find default branch. Tried 'main' and 'master'.",
          some "Check repository permissions and try again."⟩) := by
  have hshape : (createPullRequest host now owner repo codes).result =
        .error (apiError "Could not find default branch. Tried 'main' and 'master'.") ∧
      (createPullRequest host now owner repo codes).log =
        [⟨.reposGet owner repo, host [] (.reposGet owner repo)⟩,
         ⟨lookupCall host owner repo, .error e2⟩, ⟨masterCall owner repo, .error e3⟩] := by
    rcases run_shape host now owner repo codes with
      ⟨e2', e3', h2', h3', hres, hlog⟩ | ⟨pre, base, sha, hpre, -⟩
    · rw [h2] at h2'
      rw [h3] at h3'
      cases h2'
      cases h3'
      exact ⟨hres, hlog⟩
    · rcases hpre with ⟨-, h2', -⟩ | ⟨e2', -, -, h3', -⟩
      · rw [h2] at h2'
        cases h2'
      · rw [h3] at h3'
        cases h3'
  obtain ⟨hres, hlog⟩ := hshape
  have hres2 : (createPullRequest host now owner repo codes).result =
      .error ⟨"GitHub API error: Could not find default branch. Tried 'main' and 'master'.",
        none⟩ := by
    rw [hres]
    rfl
  refine ⟨by simp [hlog, calls], ?_, hres2, noDefaultBranch_message.1, ?_⟩
  · intro c hc
    simp only [hlog, calls, List.map_cons, List.map_nil, List.mem_cons, List.mem_singleton,
      List.not_mem_nil, or_false] at hc
    rcases hc with rfl | rfl | rfl <;> simp [Call.isCreateRef, Call.isPutFile, Call.isPullsCreate, lookupCall, masterCall]
  · intro sv db userId testCaseId ids testCase hhost hnow hid hfind hown ho hn hcodes hne
    have hlen : (resolveCodes testCase ids).length ≠ 0 := by
      intro h0
      apply hne
      rw [← hcodes, List.length_eq_zero.mp h0]
      rfl
    simp only [publishStage, hid, if_false, hfind, hown, ne_eq, not_true_eq_false, hlen, hhost,
      hnow, ho, hn, hcodes, hres2, prFailure, noDefaultBranch_message.2]

theorem perform_congr {host1 host2 : Host}
    (hagree : ∀ hist c, c.isReadme = false → host1 hist c = host2 hist c)
    (log : List Event) (c : Call) (hc : c.isReadme = false) :
    perform host1 log c = perform host2 log c := by
  simp [perform, hagree _ c hc]

@[simp] theorem isReadme_writeCall (owner repo branchName : String) (codeData : CodeData)
    (code : String) : (writeCall owner repo branchName codeData code).isReadme = false := by
  simp [writeCall, Call.isReadme, testMessage_ne_readme]

theorem commitFiles_congr {host1 host2 : Host}
    (hagree : ∀ hist c, c.isReadme = false → host1 hist c = host2 hist c)
    (owner repo branchName : String) :
    ∀ (codes : List CodeData) (log : List Event) (created : List String),
      commitFiles host1 owner repo branchName codes log created =
        commitFiles host2 owner repo branchName codes log created := by
  intro codes
  induction codes with
  | nil => intro log created; rfl
  | cons c cs ih =>
    intro log created
    cases hc : c.code with
    | none => simp [commitFiles, hc, ih]
    | some code =>
      simp only [commitFiles, hc, perform_congr hagree log _ (isReadme_writeCall _ _ _ _ _), ih]

/-- The part of a result that does not depend on the response to the README write. -/
theorem publishFiles_congr {host1 host2 : Host}
    (hagree : ∀ hist c, c.isReadme = false → host1 hist c = host2 hist c)
    (owner repo branchName base : String) (codes : List CodeData) (log : List Event)
    (created : List String) :
    (publishFiles host1 owner repo branchName base codes log created).1 =
      (publishFiles host2 owner repo branchName base codes log created).1 ∧
    calls (publishFiles host1 owner repo branchName base codes log created).2 =
      calls (publishFiles host2 owner repo branchName base codes log created).2 ∧
    (publishFiles host1 owner repo branchName base codes log created).2.filter
        (fun e => !e.call.isReadme) =
      (publishFiles host2 owner repo branchName base codes log created).2.filter
        (fun e => !e.call.isReadme) := by
  rw [publishFiles_eq, publishFiles_eq]
  have hpr := hagree (calls log ++ [readmeCall owner repo branchName created codes])
    (prCall owner repo branchName base created codes) rfl
  have hrd : (readmeCall owner repo branchName created codes).isReadme = true := by
    simp [readmeCall, Call.isReadme]
  have hp : (prCall owner repo branchName base created codes).isReadme = false := rfl
  rw [hpr]
  simp [calls, hrd, hp]

theorem createPullRequest_log (host : Host) (now : Nat) (owner repo : String)
    (codes : List CodeData) :
    (createPullRequest host now owner repo codes).log =
      (tryPullRequest host now owner repo codes).2 := by
  simp only [createPullRequest]
  split <;> rename_i h <;> simp [h]

theorem createPullRequest_result (host : Host) (now : Nat) (owner repo : String)
    (codes : List CodeData) :
    (createPullRequest host now owner repo codes).result =
      match (tryPullRequest host now owner repo codes).1 with
      | .ok htmlUrl => .ok htmlUrl
      | .error error => .error (rethrow owner repo error) := by
  simp only [createPullRequest]
  split <;> rename_i h <;> simp [h]

/-- Once the README write is attempted, the run ends with the pull-request call and its result
is decided by the response to that call alone. -/
theorem readme_then_pr (host : Host) (now : Nat) (owner repo : String) (codes : List CodeData)
    (e : Event) (he : e ∈ (createPullRequest host now owner repo codes).log)
    (hr : e.call.isReadme = true) :
    ∃ p, (createPullRequest host now owner repo codes).log.getLast? = some p ∧
      p.call.isPullsCreate = true ∧
      (createPullRequest host now owner repo codes).result = prResult p.resp := by
  rcases run_shape host now owner repo codes with
    ⟨e2, e3, -, -, hres, hlog⟩ | ⟨pre, base, sha, hpre, htail⟩
  · rw [hlog] at he
    simp only [List.mem_cons, List.mem_singleton, List.not_mem_nil, or_false] at he
    rcases he with rfl | rfl | rfl <;> simp [Call.isReadme, lookupCall, masterCall] at hr
  · have hpre1 : ∀ e ∈ pre, e.call.isReadme = false := by
      rcases hpre with ⟨-, -, rfl⟩ | ⟨e2, -, -, -, rfl⟩ <;>
        simp [Call.isReadme, lookupCall, masterCall]
    have hevs : ∀ evs : List Event, calls evs = writeCalls owner repo (branchNameAt now) codes →
        ∀ e ∈ evs, e.call.isReadme = false := by
      intro evs hc e he
      obtain ⟨codeData, code, -, -, hcall⟩ := call_of_written hc he
      simp [hcall]
    rcases htail with ⟨e', -, hres, hlog⟩ |
      ⟨v, evs, -, hc, ⟨hz, hres, hlog⟩ | ⟨hz, rd, pr, -, -, hres, hlog⟩⟩
    · rw [hlog] at he
      simp only [List.mem_append, List.mem_singleton] at he
      rcases he with he | rfl
      · simp [hpre1 e he] at hr
      · simp [branchCall, Call.isReadme] at hr
    · rw [hlog] at he
      simp only [List.mem_append, List.mem_singleton] at he
      rcases he with (he | rfl) | he
      · simp [hpre1 e he] at hr
      · simp [branchCall, Call.isReadme] at hr
      · simp [hevs evs hc e he] at hr
    · refine ⟨⟨prCall owner repo (branchNameAt now) base (committedPaths evs) codes, pr⟩, ?_,
        rfl, hres⟩
      rw [hlog, List.getLast?_append_of_ne_nil _ (by simp)]
      rfl

/-- C4: two hosts that answer every call but the README write alike give `createPullRequest`
the same outcome (the URL returned or the error thrown), the same sequence of calls with the
same arguments, among them the pull-request creation, and the same responses to every call
but the README write; and whenever the README write is attempted, whatever its response, the
run goes on to the pull-request call, whose response alone decides the result. -/
theorem createPullRequest_readme_irrelevant (host1 host2 : Host) (now : Nat)
    (owner repo : String) (codes : List CodeData)
    (hagree : ∀ hist c, c.isReadme = false → host1 hist c = host2 hist c) :
    (createPullRequest host1 now owner repo codes).result =
      (createPullRequest host2 now owner repo codes).result ∧
    calls (createPullRequest host1 now owner repo codes).log =
      calls (createPullRequest host2 now owner repo codes).log ∧
    (createPullRequest host1 now owner repo codes).log.filter (fun e => !e.call.isReadme) =
      (createPullRequest host2 now owner repo codes).log.filter (fun e => !e.call.isReadme) ∧
    (∀ e ∈ (createPullRequest host1 now owner repo codes).log, e.call.isReadme = true →
      ∃ p, (createPullRequest host1 now owner repo codes).log.getLast? = some p ∧
        p.call.isPullsCreate = true ∧
        (createPullRequest host1 now owner repo codes).result = prResult p.resp) := by
  have key : (tryPullRequest host1 now owner repo codes).1 =
        (tryPullRequest host2 now owner repo codes).1 ∧
      calls (tryPullRequest host1 now owner repo codes).2 =
        calls (tryPullRequest host2 now owner repo codes).2 ∧
      (tryPullRequest host1 now owner repo codes).2.filter (fun e => !e.call.isReadme) =
        (tryPullRequest host2 now owner repo codes).2.filter (fun e => !e.call.isReadme) := by
    have hfrom : ∀ base sha log,
        (fromSha host1 now owner repo codes base sha log).1 =
          (fromSha host2 now owner repo codes base sha log).1 ∧
        calls (fromSha host1 now owner repo codes base sha log).2 =
          calls (fromSha host2 now owner repo codes base sha log).2 ∧
        (fromSha host1 now owner repo codes base sha log).2.filter (fun e => !e.call.isReadme) =
          (fromSha host2 now owner repo codes base sha log).2.filter
            (fun e => !e.call.isReadme) := by
      intro base sha log
      simp only [fromSha, perform_congr hagree log (.createRef owner repo _ sha) rfl,
        commitFiles_congr hagree]
      split
      · exact ⟨rfl, rfl, rfl⟩
      · split
        · exact ⟨rfl, rfl, rfl⟩
        · exact publishFiles_congr hagree _ _ _ _ _ _ _
    simp only [tryPullRequest, perform_congr hagree [] (.reposGet owner repo) rfl]
    simp only [perform_congr hagree _ (.getRef owner repo _) rfl]
    split
    · exact hfrom _ _ _
    · split
      · exact hfrom _ _ _
      · exact ⟨rfl, rfl, rfl⟩
  obtain ⟨k1, k2, k3⟩ := key
  refine ⟨?_, ?_, ?_, fun e he hr => readme_then_pr host1 now owner repo codes e he hr⟩
  · simp only [createPullRequest_result, k1]
  · simpa only [createPullRequest_log] using k2
  · simpa only [createPullRequest_log] using k3

/-- After the lookups resolved `base` at `sha`, the log continues with the branch creation from
`sha`; what follows creates no ref and looks up no head, opens pull requests against `base`
only, and is empty when the branch creation failed. -/
theorem run_summary (host : Host) (now : Nat) (owner repo : String) (codes : List CodeData) :
    (∃ e2 e3,
      host [.reposGet owner repo] (lookupCall host owner repo) = .error e2 ∧
      (createPullRequest host now owner repo codes).log =
        [⟨.reposGet owner repo, host [] (.reposGet owner repo)⟩,
         ⟨lookupCall host owner repo, .error e2⟩, ⟨masterCall owner repo, .error e3⟩]) ∨
    (∃ pre base sha r rest,
      ((base = resolvedBranch host owner repo ∧
        host [.reposGet owner repo] (lookupCall host owner repo) = .ok sha ∧
        pre = [⟨.reposGet owner repo, host [] (.reposGet owner repo)⟩,
               ⟨lookupCall host owner repo, .ok sha⟩]) ∨
       (∃ e2, base = "master" ∧
        host [.reposGet owner repo] (lookupCall host owner repo) = .error e2 ∧
        pre = [⟨.reposGet owner repo, host [] (.reposGet owner repo)⟩,
               ⟨lookupCall host owner repo, .error e2⟩, ⟨masterCall owner repo, .ok sha⟩])) ∧
      (createPullRequest host now owner repo codes).log =
        pre ++ ⟨branchCall now owner repo sha, r⟩ :: rest ∧
      (∀ e ∈ rest, e.call.isGetRef = false ∧ e.call.isCreateRef = false ∧
        (e.call.isPullsCreate = true →
          ∃ body, e.call = .pullsCreate owner repo prTitle (branchNameAt now) base body)) ∧
      (∀ err, r = .error err → rest = [] ∧
        (createPullRequest host now owner repo codes).result =
          .error (apiError ("Failed to create branch: " ++ err.message)))) := by
  rcases run_shape host now owner repo codes with
    ⟨e2, e3, h2, -, -, hlog⟩ | ⟨pre, base, sha, hpre, htail⟩
  · exact Or.inl ⟨e2, e3, h2, hlog⟩
  · right
    have hpre' : (base = resolvedBranch host owner repo ∧
        host [.reposGet owner repo] (lookupCall host owner repo) = .ok sha ∧
        pre = [⟨.reposGet owner repo, host [] (.reposGet owner repo)⟩,
               ⟨lookupCall host owner repo, .ok sha⟩]) ∨
       (∃ e2, base = "master" ∧
        host [.reposGet owner repo] (lookupCall host owner repo) = .error e2 ∧
        pre = [⟨.reposGet owner repo, host [] (.reposGet owner repo)⟩,
               ⟨lookupCall host owner repo, .error e2⟩, ⟨masterCall owner repo, .ok sha⟩]) := by
      rcases hpre with h | ⟨e2, h1, h2, -, h4⟩
      · exact Or.inl h
      · exact Or.inr ⟨e2, h1, h2, h4⟩
    have hevs : ∀ evs : List Event, calls evs = writeCalls owner repo (branchNameAt now) codes →
        ∀ e ∈ evs, e.call.isGetRef = false ∧ e.call.isCreateRef = false ∧
          (e.call.isPullsCreate = true →
            ∃ body, e.call = .pullsCreate owner repo prTitle (branchNameAt now) base body) := by
      intro evs hc e he
      obtain ⟨codeData, code, -, -, hcall⟩ := call_of_written hc he
      simp [hcall, writeCall, Call.isGetRef, Call.isCreateRef, Call.isPullsCreate]
    rcases htail with ⟨e', -, hres, hlog⟩ |
      ⟨v, evs, -, hc, ⟨hz, hres, hlog⟩ | ⟨hz, rd, pr, -, -, hres, hlog⟩⟩
    · refine ⟨pre, base, sha, .error e', [], hpre', hlog, by simp, ?_⟩
      intro err herr
      cases herr
      exact ⟨rfl, hres⟩
    · refine ⟨pre, base, sha, .ok v, evs, hpre', by simp [hlog], hevs evs hc, ?_⟩
      intro err herr
      cases herr
    · refine ⟨pre, base, sha, .ok v, evs ++ [⟨readmeCall owner repo (branchNameAt now)
          (committedPaths evs) codes, rd⟩, ⟨prCall owner repo (branchNameAt now) base
          (committedPaths evs) codes, pr⟩], hpre', by simp [hlog], ?_, ?_⟩
      · intro e he
        simp only [List.mem_append, List.mem_cons, List.mem_singleton, List.not_mem_nil,
          or_false] at he
        rcases he with he | rfl | rfl
        · exact hevs evs hc e he
        · simp [readmeCall, Call.isGetRef, Call.isCreateRef, Call.isPullsCreate]
        · simp [prCall, Call.isGetRef, Call.isCreateRef]
      · intro err herr
        cases herr
/-- C5: Step 1 resolves the default branch the host reports and `main` when the metadata read
fails; the run starts with the metadata read and the head lookup of that branch; the head
lookups are that one alone when it succeeds, and that one followed by a single lookup of
`heads/master` when it fails, so never more than two; and every branch creation uses the SHA
returned by the last lookup, which resolved a branch that is the resolved one or `master`, and
every pull request opened has that same branch as its base. -/
theorem createPullRequest_branch_resolution (host : Host) (now : Nat) (owner repo : String)
    (codes : List CodeData) :
    (∀ e, host [] (.reposGet owner repo) = .error e → resolvedBranch host owner repo = "main") ∧
    (∀ b, host [] (.reposGet owner repo) = .ok b → resolvedBranch host owner repo = b) ∧
    (createPullRequest host now owner repo codes).log.take 2 =
      [⟨.reposGet owner repo, host [] (.reposGet owner repo)⟩,
       ⟨.getRef owner repo ("heads/" ++ resolvedBranch host owner repo),
        host [.reposGet owner repo]
          (.getRef owner repo ("heads/" ++ resolvedBranch host owner repo))⟩] ∧
    (((calls (createPullRequest host now owner repo codes).log).filter Call.isGetRef =
        [.getRef owner repo ("heads/" ++ resolvedBranch host owner repo)] ∧
      ∃ sha, host [.reposGet owner repo]
        (.getRef owner repo ("heads/" ++ resolvedBranch host owner repo)) = .ok sha) ∨
     ((calls (createPullRequest host now owner repo codes).log).filter Call.isGetRef =
        [.getRef owner repo ("heads/" ++ resolvedBranch host owner repo),
         .getRef owner repo "heads/master"] ∧
      ∃ e, host [.reposGet owner repo]
        (.getRef owner repo ("heads/" ++ resolvedBranch host owner repo)) = .error e)) ∧
    ((calls (createPullRequest host now owner repo codes).log).filter Call.isGetRef).length ≤ 2 ∧
    (∀ c ∈ calls (createPullRequest host now owner repo codes).log, c.isCreateRef = true →
      ∃ base sha, (base = resolvedBranch host owner repo ∨ base = "master") ∧
        ((createPullRequest host now owner repo codes).log.filter
            (fun e => e.call.isGetRef)).getLast? =
          some ⟨.getRef owner repo ("heads/" ++ base), .ok sha⟩ ∧
        c = .createRef owner repo ("refs/heads/" ++ branchNameAt now) sha ∧
        ∀ p ∈ calls (createPullRequest host now owner repo codes).log, p.isPullsCreate = true →
          ∃ body, p = .pullsCreate owner repo prTitle (branchNameAt now) base body) := by
  refine ⟨fun e h => by simp [resolvedBranch, h], fun b h => by simp [resolvedBranch, h], ?_⟩
  rcases run_summary host now owner repo codes with
    ⟨e2, e3, h2, hlog⟩ | ⟨pre, base, sha, r, rest, hpre, hlog, hrest, -⟩
  · simp only [lookupCall, masterCall] at h2 hlog
    rw [hlog]
    refine ⟨by simp [h2], Or.inr ⟨by simp [calls, Call.isGetRef], e2, h2⟩,
      by simp [calls, Call.isGetRef], ?_⟩
    intro c hc hcr
    simp [calls] at hc
    rcases hc with rfl | rfl | rfl <;> simp [Call.isCreateRef] at hcr
  · have hf : rest.filter (fun e => e.call.isGetRef) = [] := by
      rw [List.filter_eq_nil_iff]
      intro e he
      simp [(hrest e he).1]
    have hfc : (calls rest).filter Call.isGetRef = [] := by
      simp only [calls, List.filter_eq_nil_iff, List.mem_map]
      rintro c ⟨e, he, rfl⟩
      simp [(hrest e he).1]
    simp only [lookupCall, masterCall, branchCall] at hpre hlog
    rw [hlog]
    rcases hpre with ⟨rfl, h2, rfl⟩ | ⟨e2, rfl, h2, rfl⟩
    · refine ⟨by simp [h2], Or.inl ⟨?_, sha, h2⟩, ?_, ?_⟩
      · simp only [calls, List.map_append, List.map_cons, List.filter_append] at hfc ⊢
        simp [Call.isGetRef, hfc]
      · simp only [calls, List.map_append, List.map_cons, List.filter_append] at hfc ⊢
        simp [Call.isGetRef, hfc]
      · intro c hc hcr
        refine ⟨resolvedBranch host owner repo, sha, Or.inl rfl, ?_, ?_, ?_⟩
        · simp only [List.filter_append, List.filter_cons, hf]
          simp [Call.isGetRef]
        · simp [calls] at hc
          rcases hc with rfl | rfl | rfl | ⟨e, he, rfl⟩
          · simp [Call.isCreateRef] at hcr
          · simp [Call.isCreateRef] at hcr
          · rfl
          · simp [(hrest e he).2.1] at hcr
        · intro p hp hpc
          simp [calls] at hp
          rcases hp with rfl | rfl | rfl | ⟨e, he, rfl⟩
          · simp [Call.isPullsCreate] at hpc
          · simp [Call.isPullsCreate] at hpc
          · simp [Call.isPullsCreate] at hpc
          · exact (hrest e he).2.2 hpc
    · refine ⟨by simp [h2], Or.inr ⟨?_, e2, h2⟩, ?_, ?_⟩
      · simp only [calls, List.map_append, List.map_cons, List.filter_append] at hfc ⊢
        simp [Call.isGetRef, hfc]
      · simp only [calls, List.map_append, List.map_cons, List.filter_append] at hfc ⊢
        simp [Call.isGetRef, hfc]
      · intro c hc hcr
        refine ⟨"master", sha, Or.inr rfl, ?_, ?_, ?_⟩
        · simp only [List.filter_append, List.filter_cons, hf]
          simp [Call.isGetRef]
        · simp [calls] at hc
          rcases hc with rfl | rfl | rfl | rfl | ⟨e, he, rfl⟩
          · simp [Call.isCreateRef] at hcr
          · simp [Call.isCreateRef] at hcr
          · simp [Call.isCreateRef] at hcr
          · rfl
          · simp [(hrest e he).2.1] at hcr
        · intro p hp hpc
          simp [calls] at hp
          rcases hp with rfl | rfl | rfl | rfl | ⟨e, he, rfl⟩
          · simp [Call.isPullsCreate] at hpc
          · simp [Call.isPullsCreate] at hpc
          · simp [Call.isPullsCreate] at hpc
          · simp [Call.isPullsCreate] at hpc
          · exact (hrest e he).2.2 hpc

/-- C6: a run creates at most one branch ref; the ref is
`refs/heads/workik-ai-tests-<timestamp>` and its SHA is the one a head lookup of the run
returned; and when that creation fails, the call fails and the run writes no file (no
artifact, no README) and opens no pull request. -/
theorem createPullRequest_branch_once (host : Host) (now : Nat) (owner repo : String)
    (codes : List CodeData) :
    ((calls (createPullRequest host now owner repo codes).log).filter
      Call.isCreateRef).length ≤ 1 ∧
    (∀ e ∈ (createPullRequest host now owner repo codes).log, e.call.isCreateRef = true →
      ∃ sha, e.call =
          .createRef owner repo ("refs/heads/" ++ ("workik-ai-tests-" ++ toString now)) sha ∧
        ∃ g ∈ (createPullRequest host now owner repo codes).log,
          g.call.isGetRef = true ∧ g.resp = .ok sha) ∧
    (∀ e ∈ (createPullRequest host now owner repo codes).log, e.call.isCreateRef = true →
      e.ok = false →
      (∃ err, (createPullRequest host now owner repo codes).result = .error err) ∧
      ∀ f ∈ (createPullRequest host now owner repo codes).log,
        f.call.isPutFile = false ∧ f.call.isPullsCreate = false) := by
  rcases run_summary host now owner repo codes with
    ⟨e2, e3, h2, hlog⟩ | ⟨pre, base, sha, r, rest, hpre, hlog, hrest, hfail⟩
  · rw [hlog]
    refine ⟨by simp [calls, Call.isCreateRef, lookupCall, masterCall], ?_, ?_⟩ <;>
      · intro e he hcr
        simp only [List.mem_cons, List.mem_singleton, List.not_mem_nil, or_false] at he
        rcases he with rfl | rfl | rfl <;> simp [Call.isCreateRef, lookupCall, masterCall] at hcr
  · have hpre1 : ∀ e ∈ pre, e.call.isCreateRef = false ∧ e.call.isPutFile = false ∧
        e.call.isPullsCreate = false := by
      rcases hpre with ⟨-, -, rfl⟩ | ⟨e2, -, -, rfl⟩ <;>
        simp [Call.isCreateRef, Call.isPutFile, Call.isPullsCreate, lookupCall, masterCall]
    have hg : ∃ g ∈ pre, g.call.isGetRef = true ∧ g.resp = .ok sha := by
      rcases hpre with ⟨-, -, rfl⟩ | ⟨e2, -, -, rfl⟩
      · exact ⟨⟨lookupCall host owner repo, .ok sha⟩, by simp, rfl, rfl⟩
      · exact ⟨⟨masterCall owner repo, .ok sha⟩, by simp, rfl, rfl⟩
    have hbranch : ∀ e ∈ (createPullRequest host now owner repo codes).log,
        e.call.isCreateRef = true → e = ⟨branchCall now owner repo sha, r⟩ := by
      intro e he hcr
      rw [hlog] at he
      simp only [List.mem_append, List.mem_cons] at he
      rcases he with he | rfl | he
      · simp [(hpre1 e he).1] at hcr
      · rfl
      · simp [(hrest e he).2.1] at hcr
    refine ⟨?_, ?_, ?_⟩
    · have h1 : (calls pre).filter Call.isCreateRef = [] := by
        simp only [calls, List.filter_eq_nil_iff, List.mem_map]
        rintro c ⟨e, he, rfl⟩
        simp [(hpre1 e he).1]
      have h2 : (calls rest).filter Call.isCreateRef = [] := by
        simp only [calls, List.filter_eq_nil_iff, List.mem_map]
        rintro c ⟨e, he, rfl⟩
        simp [(hrest e he).2.1]
      rw [hlog]
      simp only [calls, List.map_append, List.map_cons, List.filter_append, List.filter_cons]
        at h1 h2 ⊢
      simp [h1, h2]
      split <;> simp
    · intro e he hcr
      rw [hbranch e he hcr]
      obtain ⟨g, hgm, hg1, hg2⟩ := hg
      exact ⟨sha, rfl, g, by rw [hlog]; simp [hgm], hg1, hg2⟩
    · intro e he hcr hok
      have hr : ∃ err, r = .error err := by
        have := hbranch e he hcr
        subst this
        cases r with
        | ok v => simp [Event.ok] at hok
        | error err => exact ⟨err, rfl⟩
      obtain ⟨err, rfl⟩ := hr
      obtain ⟨hnil, hres⟩ := hfail err rfl
      refine ⟨⟨_, hres⟩, ?_⟩
      intro f hf
      rw [hlog, hnil] at hf
      simp only [List.mem_append, List.mem_singleton] at hf
      rcases hf with hf | rfl
      · exact (hpre1 f hf).2
      · simp [branchCall, Call.isPutFile, Call.isPullsCreate]

/-! ## The log of a run records the host -/

theorem faithfulFrom_append (host : Host) :
    ∀ (l1 l2 : List Event) (hist : List Call),
      faithfulFrom host hist (l1 ++ l2) ↔
        faithfulFrom host hist l1 ∧ faithfulFrom host (hist ++ calls l1) l2 := by
  intro l1
  induction l1 with
  | nil => intro l2 hist; simp [faithfulFrom, calls]
  | cons e rest ih =>
    intro l2 hist
    have hc : hist ++ [e.call] ++ calls rest = hist ++ calls (e :: rest) := by simp [calls]
    show (e.resp = host hist e.call ∧ faithfulFrom host (hist ++ [e.call]) (rest ++ l2)) ↔
      (e.resp = host hist e.call ∧ faithfulFrom host (hist ++ [e.call]) rest) ∧
        faithfulFrom host (hist ++ calls (e :: rest)) l2
    rw [ih, and_assoc, hc]

theorem faithful_snoc (host : Host) (log : List Event) (c : Call)
    (h : faithfulFrom host [] log) :
    faithfulFrom host [] (log ++ [⟨c, host (calls log) c⟩]) := by
  rw [faithfulFrom_append]
  exact ⟨h, by simp [faithfulFrom]⟩

theorem faithful_commitFiles (host : Host) (owner repo branchName : String) :
    ∀ (codes : List CodeData) (log : List Event) (created : List String),
      faithfulFrom host [] log →
      faithfulFrom host [] (commitFiles host owner repo branchName codes log created).1 := by
  intro codes
  induction codes with
  | nil => intro log created h; exact h
  | cons c cs ih =>
    intro log created h
    cases hc : c.code with
    | none => simpa [commitFiles, hc] using ih log created h
    | some code =>
      have hp := faithful_snoc host log (writeCall owner repo branchName c code) h
      simp only [commitFiles, hc, perform]
      split <;> rename_i h1 <;> simp only [Prod.mk.injEq] at h1 <;> obtain ⟨-, rfl⟩ := h1 <;>
        exact ih _ _ hp

/-- Every response in the log of a run is the response of the host to the call, given the
calls the log holds before it. -/
theorem createPullRequest_log_faithful (host : Host) (now : Nat) (owner repo : String)
    (codes : List CodeData) :
    faithfulFrom host [] (createPullRequest host now owner repo codes).log := by
  have hfrom : ∀ base sha log, faithfulFrom host [] log →
      faithfulFrom host [] (fromSha host now owner repo codes base sha log).2 := by
    intro base sha log h
    have hp := faithful_snoc host log
      (.createRef owner repo ("refs/heads/" ++ branchNameAt now) sha) h
    simp only [fromSha, perform]
    split <;> rename_i h1 <;> simp only [Prod.mk.injEq] at h1 <;> obtain ⟨-, rfl⟩ := h1
    · exact hp
    · have hc := faithful_commitFiles host owner repo (branchNameAt now) codes _ [] hp
      split
      · exact hc
      · rw [publishFiles_eq]
        have h5 := faithful_snoc host _ (readmeCall owner repo (branchNameAt now)
          (commitFiles host owner repo (branchNameAt now) codes
            (log ++ [⟨.createRef owner repo ("refs/heads/" ++ branchNameAt now) sha,
              host (calls log) (.createRef owner repo ("refs/heads/" ++ branchNameAt now) sha)⟩])
            []).2 codes) hc
        have h6 := faithful_snoc host _ (prCall owner repo (branchNameAt now) base
          (commitFiles host owner repo (branchNameAt now) codes
            (log ++ [⟨.createRef owner repo ("refs/heads/" ++ branchNameAt now) sha,
              host (calls log) (.createRef owner repo ("refs/heads/" ++ branchNameAt now) sha)⟩])
            []).2 codes) h5
        simpa [calls] using h6
  rw [createPullRequest_log]
  have h1 := faithful_snoc host [] (.reposGet owner repo) trivial
  have h2 := faithful_snoc host _ (lookupCall host owner repo) h1
  simp only [tryPullRequest, perform]
  split <;> rename_i hq <;> simp only [Prod.mk.injEq] at hq <;> obtain ⟨-, rfl⟩ := hq
  · exact hfrom _ _ _ h2
  · have h3 := faithful_snoc host _ (.getRef owner repo "heads/master") h2
    split <;> rename_i hr <;> simp only [Prod.mk.injEq] at hr <;> obtain ⟨-, rfl⟩ := hr
    · exact hfrom _ _ _ h3
    · exact h3

/-! ## Instances of the publication properties on sample hosts -/

/-- Three artifacts, the second write refused: the pull request is opened, its body says 2 and
lists the first and the third path. -/
theorem createPullRequest_partial_commit_witness :
    committedPaths (createPullRequest flakyHost 7 "o" "r" threeCodes).log =
      ["tests/a.test.js", "tests/c.test.js"] ∧
    ∃ url base,
      (createPullRequest flakyHost 7 "o" "r" threeCodes).result = .ok url ∧
      (createPullRequest flakyHost 7 "o" "r" threeCodes).log.getLast? =
        some ⟨.pullsCreate "o" "r" prTitle "workik-ai-tests-7" base
          (prBodyHead ++ "2" ++ prBodyMid ++ "- `tests/a.test.js`\n- `tests/c.test.js`" ++
            prBodyTail threeCodes), .ok url⟩ := by
  have hc : committedPaths (createPullRequest flakyHost 7 "o" "r" threeCodes).log =
      ["tests/a.test.js", "tests/c.test.js"] := by decide
  obtain ⟨url, base, h1, h2, -⟩ :=
    createPullRequest_partial_commit flakyHost 7 "o" "r" threeCodes (by decide) (by decide)
  refine ⟨hc, url, base, h1, ?_⟩
  rw [h2, hc]
  rfl

/-- A repository whose metadata and both head lookups fail: three calls, then the error. -/
theorem createPullRequest_no_default_branch_witness :
    calls (createPullRequest noBranchHost 7 "o" "r" threeCodes).log =
      [.reposGet "o" "r", .getRef "o" "r" "heads/main", .getRef "o" "r" "heads/master"] ∧
    (createPullRequest noBranchHost 7 "o" "r" threeCodes).result =
      .error ⟨"GitHub API error: Could not find default branch. Tried 'main' and 'master'.",
        none⟩ :=
  have h := createPullRequest_no_default_branch noBranchHost 7 "o" "r" threeCodes
    ⟨"Not Found", some 404⟩ ⟨"Not Found", some 404⟩ rfl rfl
  ⟨h.1, h.2.2.1⟩

/-- A host that creates the branch and refuses every write: the call fails before the README. -/
theorem createPullRequest_no_empty_pr_witness :
    (createPullRequest readOnlyHost 7 "o" "r" threeCodes).result =
      .error ⟨"GitHub API error: Failed to create any test files", none⟩ :=
  (createPullRequest_no_empty_pr readOnlyHost 7 "o" "r" threeCodes (by decide) (by decide)).1

/-- The README write fails on one host and succeeds on the other: same result. -/
theorem createPullRequest_readme_irrelevant_witness :
    (∃ e ∈ (createPullRequest noReadmeHost 7 "o" "r" threeCodes).log,
      e.call.isReadme = true ∧ e.ok = false) ∧
    (createPullRequest flakyHost 7 "o" "r" threeCodes).result =
      (createPullRequest noReadmeHost 7 "o" "r" threeCodes).result :=
  ⟨by decide,
   (createPullRequest_readme_irrelevant flakyHost noReadmeHost 7 "o" "r" threeCodes
      (fun hist c h => by simp [noReadmeHost, h])).1⟩

/-- A host on which the branch name is taken: the call fails, nothing is written or opened. -/
theorem createPullRequest_branch_once_witness :
    (∃ err, (createPullRequest takenHost 7 "o" "r" threeCodes).result = .error err) ∧
    ∀ f ∈ (createPullRequest takenHost 7 "o" "r" threeCodes).log,
      f.call.isPutFile = false ∧ f.call.isPullsCreate = false :=
  (createPullRequest_branch_once takenHost 7 "o" "r" threeCodes).2.2
    ⟨.createRef "o" "r" "refs/heads/workik-ai-tests-7" "abc123",
      .error ⟨"Reference already exists", some 422⟩⟩ (by decide) rfl rfl

/-! ## The code stage -/

theorem generateTestCode_cons (model : CodeModel) (functionMatches : String → List String)
    (asked : Nat) (mainFile : SourceFile) (files : List SourceFile) (summary : Summary) :
    ∃ code prompt, generateTestCode model functionMatches asked (mainFile :: files) summary =
      (.ok code, [prompt]) := by
  simp only [generateTestCode]
  split
  · exact ⟨_, _, rfl⟩
  · exact ⟨_, _, rfl⟩

/-- The loop of the code stage: it throws only for a job without files some entry of which
matches, and otherwise pushes one entry per match, in order: the `k`-th is the artifact of the
`k`-th matched summary, generated after the prompts of the matches before it. -/
theorem generateCodes_spec (sv : Services) (testCase : TestCase) :
    ∀ (ids : List String) (acc : List JsObject) (prompts : List CodePrompt),
      (∃ e p, generateCodes sv testCase ids acc prompts = (.error e, p) ∧
        testCase.files = [] ∧ matchedSummaries testCase ids ≠ []) ∨
      (∃ outs, generateCodes sv testCase ids acc prompts =
          (.ok (acc ++ outs),
            prompts ++ promptsOf sv testCase (matchedSummaries testCase ids) prompts.length) ∧
        List.Forall₂ (fun o p => artifactOf sv testCase p.1 p.2 = some o) outs
          (List.enumFrom prompts.length (matchedSummaries testCase ids)) ∧
        (testCase.files ≠ [] ∨ matchedSummaries testCase ids = []) ∧
        (promptsOf sv testCase (matchedSummaries testCase ids) prompts.length).length =
          (matchedSummaries testCase ids).length) := by
  intro ids
  induction ids with
  | nil =>
    intro acc prompts
    exact Or.inr ⟨[], by simp [generateCodes, matchedSummaries, promptsOf],
      by simp [matchedSummaries], Or.inr rfl, by simp [matchedSummaries, promptsOf]⟩
  | cons id rest ih =>
    intro acc prompts
    cases hfind : testCase.summaries.find? (summaryMatches id) with
    | none =>
      have hm : matchedSummaries testCase (id :: rest) = matchedSummaries testCase rest := by
        simp [matchedSummaries, hfind]
      rw [hm]
      simpa only [generateCodes, hfind] using ih acc prompts
    | some summary =>
      have hm : matchedSummaries testCase (id :: rest) =
          summary :: matchedSummaries testCase rest := by
        simp [matchedSummaries, hfind]
      rw [hm]
      cases hfiles : testCase.files with
      | nil =>
        left
        exact ⟨⟨"Cannot read properties of undefined (reading 'language')", none⟩, prompts,
          by simp [generateCodes, hfind, hfiles, generateTestCode], rfl, by simp⟩
      | cons mainFile files =>
        right
        obtain ⟨code, prompt, hgen⟩ := generateTestCode_cons sv.codeModel sv.functionMatches
          prompts.length mainFile files summary
        have hgen2 : generateTestCode sv.codeModel sv.functionMatches prompts.length
            testCase.files summary = (.ok code, [prompt]) := by rw [hfiles]; exact hgen
        have hart : artifactOf sv testCase prompts.length summary =
            some (codeEntry summary code) := by
          simp only [artifactOf, hgen2]
        rcases ih (acc ++ [codeEntry summary code]) (prompts ++ [prompt]) with
          ⟨e, p, -, hnil, -⟩ | ⟨outs, hrun, hall, -, hlen⟩
        · simp [hfiles] at hnil
        · have hl : (prompts ++ [prompt]).length = prompts.length + 1 := by simp
          rw [hl] at hrun hall hlen
          refine ⟨codeEntry summary code :: outs, ?_, ?_, Or.inl (by simp), ?_⟩
          · simp only [generateCodes, hfind, hgen2, hrun, promptsOf]
            simp
          · exact List.Forall₂.cons hart hall
          · simp only [promptsOf, hgen2, List.length_append, List.length_cons, List.length_nil,
              hlen]
            omega

theorem runCodeStage_owned (sv : Services) (db : Db) (userId testCaseId : String)
    (ids : List String) (testCase : TestCase) (hid : testCaseId ≠ "")
    (hfind : findById db testCaseId = some testCase) (hown : testCase.userId = userId) :
    runCodeStage sv db userId ⟨some testCaseId, some ids⟩ =
      match generateCodes sv testCase ids [] [] with
      | (.error error, prompts) =>
        ⟨.error ⟨500, "Failed to generate test code", some error.message, none⟩, db, prompts, []⟩
      | (.ok generatedCodes, prompts) =>
        if generatedCodes.length = 0 then ⟨.error noValidSummaries, db, prompts, []⟩
        else
          match sv.persist (pushGeneratedCode sv testCase generatedCodes) with
          | .error error =>
            ⟨.error ⟨500, "Failed to generate test code", some error.message, none⟩, db,
              prompts, []⟩
          | .ok _ =>
            ⟨.ok generatedCodes, saved db (pushGeneratedCode sv testCase generatedCodes),
              prompts, []⟩ := by
  simp only [runCodeStage, hid, if_false, hfind, hown, ne_eq, not_true_eq_false]

/-- C8: for a well-formed request on a job owned by the caller, the code stage answers
`No valid summaries found for code generation` exactly when no entry of `summaryIds` matches a
summary of the job, and then leaves the collection as it was and sends no prompt; when it
succeeds, it returns one artifact per matching entry, in request order: the `k`-th artifact is
the one of the summary the `k`-th matching entry resolves to, built from the object generated
for that summary by the `k`-th prompt, and the prompts sent are the ones of these summaries in
that order; the artifacts are stored; and it does succeed when some entry matches, the job has
a file and the save is accepted. -/
theorem runCodeStage_one_per_match (sv : Services) (db : Db) (userId testCaseId : String)
    (ids : List String) (testCase : TestCase) (hid : testCaseId ≠ "")
    (hfind : findById db testCaseId = some testCase) (hown : testCase.userId = userId) :
    ((runCodeStage sv db userId ⟨some testCaseId, some ids⟩).response = .error noValidSummaries ↔
      matchedSummaries testCase ids = []) ∧
    (matchedSummaries testCase ids = [] →
      (runCodeStage sv db userId ⟨some testCaseId, some ids⟩).db = db ∧
      (runCodeStage sv db userId ⟨some testCaseId, some ids⟩).prompts = []) ∧
    (∀ out, (runCodeStage sv db userId ⟨some testCaseId, some ids⟩).response = .ok out →
      List.Forall₂ (fun o p => artifactOf sv testCase p.1 p.2 = some o) out
        (matchedSummaries testCase ids).enum ∧
      out.length = (matchedSummaries testCase ids).length ∧
      (runCodeStage sv db userId ⟨some testCaseId, some ids⟩).prompts =
        promptsOf sv testCase (matchedSummaries testCase ids) 0 ∧
      (runCodeStage sv db userId ⟨some testCaseId, some ids⟩).prompts.length =
        (matchedSummaries testCase ids).length ∧
      (runCodeStage sv db userId ⟨some testCaseId, some ids⟩).db =
        saved db (pushGeneratedCode sv testCase out)) ∧
    (testCase.files ≠ [] → matchedSummaries testCase ids ≠ [] →
      (∀ doc, sv.persist doc = .ok ()) →
      ∃ out, (runCodeStage sv db userId ⟨some testCaseId, some ids⟩).response = .ok out) := by
  rw [runCodeStage_owned sv db userId testCaseId ids testCase hid hfind hown]
  rcases generateCodes_spec sv testCase ids [] [] with
    ⟨e, p, hrun, hnil, hne⟩ | ⟨outs, hrun, hall, -, hlen⟩
  · rw [hrun]
    refine ⟨⟨fun h => ?_, fun h => absurd h hne⟩, fun h => absurd h hne, fun out h => ?_,
      fun h => absurd hnil h⟩
    · simp [noValidSummaries] at h
    · simp at h
  · rw [hrun]
    simp only [List.nil_append, List.length_nil] at hlen hall ⊢
    have hl : outs.length = (matchedSummaries testCase ids).length := by
      have := hall.length_eq
      simpa using this
    by_cases hz : outs.length = 0
    · have hm : matchedSummaries testCase ids = [] := by
        rw [← List.length_eq_zero, ← hl, hz]
      simp [hz, hm, promptsOf]
    · have hm : matchedSummaries testCase ids ≠ [] := by
        rw [ne_eq, ← List.length_eq_zero, ← hl]
        exact hz
      simp only [hz, if_false]
      cases hsave : sv.persist (pushGeneratedCode sv testCase outs) with
      | error err =>
        refine ⟨⟨fun h => ?_, fun h => absurd h hm⟩, fun h => absurd h hm, fun out h => ?_,
          fun _ _ hp => ?_⟩
        · simp [noValidSummaries] at h
        · simp at h
        · rw [hp] at hsave
          cases hsave
      | ok u =>
        refine ⟨⟨fun h => ?_, fun h => absurd h hm⟩, fun h => absurd h hm, fun out h => ?_,
          fun _ _ _ => ⟨outs, rfl⟩⟩
        · simp at h
        · simp only [Except.ok.injEq] at h
          subst h
          exact ⟨hall, hl, rfl, hlen, rfl⟩

/-- C9: when the record named by `testCaseId` belongs to another principal, the code stage and
the publication stage answer 404 `Test case not found`, leave the collection as it was, send
no prompt to the generative backend and make no call on the remote host; and the response is
the one given when the collection holds no such record or holds any other record of another
principal, whatever the collaborators and the rest of the request. -/
theorem stages_hide_foreign_records (sv sv2 : Services) (db db2 : Db)
    (userId testCaseId : String) (testCase : TestCase) (hid : testCaseId ≠ "")
    (hfind : findById db testCaseId = some testCase) (hown : testCase.userId ≠ userId)
    (hother : ∀ t, findById db2 testCaseId = some t → t.userId ≠ userId) :
    (∀ ids, runCodeStage sv db userId ⟨some testCaseId, some ids⟩ =
      ⟨.error ⟨404, "Test case not found", none, none⟩, db, [], []⟩) ∧
    (∀ ids, publishStage sv db userId ⟨some testCaseId, some ids⟩ =
      ⟨.error ⟨404, "Test case not found", none, none⟩, db, [], []⟩) ∧
    (∀ ids, (runCodeStage sv2 db2 userId ⟨some testCaseId, ids⟩).response =
      (runCodeStage sv db userId ⟨some testCaseId, ids⟩).response) ∧
    (∀ ids, (publishStage sv2 db2 userId ⟨some testCaseId, ids⟩).response =
      (publishStage sv db userId ⟨some testCaseId, ids⟩).response) := by
  have h1 : ∀ ids, runCodeStage sv db userId ⟨some testCaseId, some ids⟩ =
      ⟨.error ⟨404, "Test case not found", none, none⟩, db, [], []⟩ := by
    intro ids
    simp [runCodeStage, hid, hfind, hown, notFound]
  have h2 : ∀ ids, publishStage sv db userId ⟨some testCaseId, some ids⟩ =
      ⟨.error ⟨404, "Test case not found", none, none⟩, db, [], []⟩ := by
    intro ids
    simp [publishStage, hid, hfind, hown, notFound]
  refine ⟨h1, h2, ?_, ?_⟩
  · intro ids
    cases ids with
    | none => simp [runCodeStage]
    | some ids =>
      rw [h1]
      cases hf : findById db2 testCaseId with
      | none => simp [runCodeStage, hid, hf, notFound]
      | some t => simp [runCodeStage, hid, hf, hother t hf, notFound]
  · intro ids
    cases ids with
    | none => simp [publishStage]
    | some ids =>
      rw [h2]
      cases hf : findById db2 testCaseId with
      | none => simp [publishStage, hid, hf, notFound]
      | some t => simp [publishStage, hid, hf, hother t hf, notFound]

/-- Four entries, one of them unknown and one repeated: three artifacts, for `s1`, `s2` and
`s1` in that order, each the placeholder of its summary, after the three prompts of these
summaries. -/
theorem runCodeStage_one_per_match_witness :
    (runCodeStage offlineServices sampleDb "alice"
        ⟨some "64f000000000000000000001", some ["s1", "unknown", "s2", "s1"]⟩).response =
      .ok [("summaryId", "s1") :: getFallbackTestCode (fun _ => ["add"])
              ⟨"app.js", "function add(a,b)\x7breturn a+b;\x7d", "javascript"⟩ sampleSummary,
           ("summaryId", "s2") :: getFallbackTestCode (fun _ => ["add"])
              ⟨"app.js", "function add(a,b)\x7breturn a+b;\x7d", "javascript"⟩
              { sampleSummary with _id := "64f0000000000000000000a2", id := some "s2",
                                   title := some "Edge cases",
                                   description := some "Checks add on bounds.",
                                   priority := some "medium" },
           ("summaryId", "s1") :: getFallbackTestCode (fun _ => ["add"])
              ⟨"app.js", "function add(a,b)\x7breturn a+b;\x7d", "javascript"⟩ sampleSummary] ∧
    (runCodeStage offlineServices sampleDb "alice"
        ⟨some "64f000000000000000000001", some ["s1", "unknown", "s2", "s1"]⟩).prompts.map
        CodePrompt.title = ["Unit tests", "Edge cases", "Unit tests"] ∧
    matchedSummaries sampleJob ["s1", "unknown", "s2", "s1"] =
      [sampleSummary,
       { sampleSummary with _id := "64f0000000000000000000a2", id := some "s2",
                            title := some "Edge cases",
                            description := some "Checks add on bounds.",
                            priority := some "medium" },
       sampleSummary] := by
  have h := runCodeStage_one_per_match offlineServices sampleDb "alice"
    "64f000000000000000000001" ["s1", "unknown", "s2", "s1"] sampleJob (by decide) (by decide) rfl
  obtain ⟨out, hout⟩ := h.2.2.2 (by decide) (by decide) (fun _ => rfl)
  have hm : matchedSummaries sampleJob ["s1", "unknown", "s2", "s1"] =
      [sampleSummary,
       { sampleSummary with _id := "64f0000000000000000000a2", id := some "s2",
                            title := some "Edge cases",
                            description := some "Checks add on bounds.",
                            priority := some "medium" },
       sampleSummary] := by decide
  obtain ⟨hall, -, hprompts, -, -⟩ := h.2.2.1 out hout
  rw [hm] at hall hprompts
  refine ⟨?_, ?_, hm⟩
  · rw [hout]
    simp only [List.enum, List.enumFrom] at hall
    cases hall with
    | cons h1 hall =>
      cases hall with
      | cons h2 hall =>
        cases hall with
        | cons h3 hall =>
          cases hall
          have e1 := Option.some.inj (h1.symm.trans (by rfl))
          have e2 := Option.some.inj (h2.symm.trans (by rfl))
          have e3 := Option.some.inj (h3.symm.trans (by rfl))
          rw [e1, e2, e3]
          rfl
  · rw [hprompts]
    decide

/-- Another user names the job of `alice`: 404, as on an empty collection. -/
theorem stages_hide_foreign_records_witness :
    runCodeStage echoServices sampleDb "mallory"
        ⟨some "64f000000000000000000001", some ["s1"]⟩ =
      ⟨.error ⟨404, "Test case not found", none, none⟩, sampleDb, [], []⟩ ∧
    (publishStage offlineServices [] "mallory" ⟨some "64f000000000000000000001", some []⟩).response =
      (publishStage echoServices sampleDb "mallory"
        ⟨some "64f000000000000000000001", some []⟩).response :=
  have h := stages_hide_foreign_records echoServices offlineServices sampleDb [] "mallory"
    "64f000000000000000000001" sampleJob (by decide) (by decide) (by decide)
    (fun t ht => by simp [findById] at ht)
  ⟨h.1 ["s1"], h.2.2.2 (some [])⟩

/-- C7 fails on the code: when the object returned for a summary carries a `summaryId`
property, the spread after `summaryId` overrides the id of the summary, and the artifact
stored references `bogus`, which is the `id` or `_id` of no summary of the job. -/
theorem runCodeStage_summaryId_overridden :
    (runCodeStage echoServices sampleDb "alice"
        ⟨some "64f000000000000000000001", some ["s1"]⟩).response =
      .ok [[("summaryId", "bogus"),
            ("code", "test('add', () => expect(add(1, 2)).toBe(3));"),
            ("filename", "app.test.js"), ("framework", "jest"), ("language", "javascript")]] ∧
    (findById (runCodeStage echoServices sampleDb "alice"
        ⟨some "64f000000000000000000001", some ["s1"]⟩).db "64f000000000000000000001").map
      (fun doc => (doc.generatedCode.map GeneratedCode.summaryId,
        doc.summaries.map Summary.id, doc.summaries.map Summary._id)) =
      some ([some "bogus"], [some "s1", some "s2"],
        ["64f0000000000000000000a1", "64f0000000000000000000a2"]) := by
  decide

theorem JsObject.get_cons (k v : String) (rest : JsObject) (key : String) :
    JsObject.get ((k, v) :: rest) key = if k = key then some v else JsObject.get rest key := by
  unfold JsObject.get
  rw [List.find?_cons]
  by_cases h : k = key
  · simp [h]
  · have hb : (k == key) = false := by simpa using h
    simp [h, hb]

theorem JsObject.get_set (o : JsObject) (key value key2 : String) :
    JsObject.get (JsObject.set o key value) key2 =
      if key = key2 then some value else JsObject.get o key2 := by
  induction o with
  | nil =>
    simp only [JsObject.set, JsObject.get_cons]
  | cons kv rest ih =>
    obtain ⟨k, v⟩ := kv
    by_cases hk : k = key
    · subst hk
      simp only [JsObject.set, beq_self_eq_true, if_true, JsObject.get_cons]
      by_cases h : k = key2 <;> simp [h]
    · have hb : (k == key) = false := by simpa using hk
      have hs : JsObject.set ((k, v) :: rest) key value =
          (k, v) :: JsObject.set rest key value := by
        simp [JsObject.set, hk]
      rw [hs, JsObject.get_cons, JsObject.get_cons, ih]
      by_cases h2 : k = key2
      · have h3 : key ≠ key2 := fun h => hk (h2.trans h.symm)
        simp [h2, h3]
      · simp [h2]

/-- An object without a `summaryId` property leaves the `summaryId` of the pushed entry to the
matched summary: its `id`, or its `_id` when the `id` is missing or empty. -/
theorem codeEntry_summaryId (summary : Summary) (code : JsObject)
    (h : JsObject.get code "summaryId" = none) :
    JsObject.get (codeEntry summary code) "summaryId" =
      some (orDefault summary.id summary._id) := by
  have key : ∀ (source target : JsObject), JsObject.get source "summaryId" = none →
      JsObject.get (JsObject.spread target source) "summaryId" =
        JsObject.get target "summaryId" := by
    intro source
    induction source with
    | nil => intro target _; rfl
    | cons kv rest ih =>
      intro target hs
      obtain ⟨k, v⟩ := kv
      rw [JsObject.get_cons] at hs
      have hk : k ≠ "summaryId" := by
        intro hk
        simp [hk] at hs
      have hrest : JsObject.get rest "summaryId" = none := by
        simpa [hk] using hs
      simp only [JsObject.spread, List.foldl_cons] at ih ⊢
      rw [ih _ hrest, JsObject.get_set]
      simp [hk]
  rw [codeEntry, key code _ h, JsObject.get_cons]
  simp [JsObject.get]

/-! ## The summary engine -/

/-- A map that completes returns one draft per element of the array. -/
theorem mapSummaries_length (clock : Nat → Nat) :
    ∀ (items : List (Option JsObject)) (index reads : Nat) (drafts : List SummaryDraft)
      (reads1 : Nat), mapSummaries clock items index reads = (some drafts, reads1) →
      drafts.length = items.length := by
  intro items
  induction items with
  | nil =>
    intro index reads drafts reads1 h
    simp [mapSummaries] at h
    simp [← h.1]
  | cons item rest ih =>
    intro index reads drafts reads1 h
    cases item with
    | none => simp [mapSummaries] at h
    | some summary =>
      simp only [mapSummaries] at h
      split at h
      · rename_i ds r1 hrec
        simp only [Prod.mk.injEq, Option.some.injEq] at h
        rw [← h.1]
        simp [ih _ _ _ _ hrec]
      · simp at h

/-- Whatever the backend does, short of returning the empty array, `generateTestSummaries`
returns at least one summary. -/
theorem generateTestSummaries_nonempty (model : List FileContext → SummariesReply)
    (clock : Nat → Nat) (files : List SourceFile)
    (h : model (files.map (fun file =>
      ({ path := file.path, language := file.language,
         contentPreview := file.content.take 2000 } : FileContext))) ≠ .array []) :
    generateTestSummaries model clock files ≠ [] := by
  simp only [generateTestSummaries]
  split
  · rename_i items hitems
    split
    · rename_i drafts r hmap
      have hlen := mapSummaries_length clock items 0 0 drafts r hmap
      intro hnil
      apply h
      rw [hitems]
      rw [hnil] at hlen
      simp only [List.length_nil] at hlen
      rw [List.length_eq_zero.mp hlen.symm]
    · simp [getFallbackSummaries]
  · simp [getFallbackSummaries]

/-- C10 fails on the code: when the text of the backend holds the empty JSON array,
`generateTestSummaries` returns that array mapped, zero summaries, and no fallback. -/
theorem generateTestSummaries_empty_array (clock : Nat → Nat) (files : List SourceFile) :
    generateTestSummaries (fun _ => .array []) clock files = [] := rfl

/-! ## The code engine -/

/-- The framework `getTestFramework` returns for a language, with no preferred framework, and the
suffix `getTestFileName` appends for it: a row of the naming table, or, for a language that
names a member inherited from `Object.prototype`, the text of that member and the default
suffix. -/
theorem getTestFramework_default (language : String) :
    (getTestFramework language none, readOr
        [("jest", ".test.js"), ("pytest", "_test.py"), ("junit", "Test.java"),
         ("testing", "_test.go"), ("xunit", "Tests.cs")]
        (getTestFramework language none) ".test.js") ∈
      [("jest", ".test.js"), ("pytest", "_test.py"), ("junit", "Test.java"),
       ("testing", "_test.go"), ("xunit", "Tests.cs")] ∨
    (language ∈ inheritedKeys ∧ getTestFramework language none = memberText language ∧
      readOr
        [("jest", ".test.js"), ("pytest", "_test.py"), ("junit", "Test.java"),
         ("testing", "_test.go"), ("xunit", "Tests.cs")]
        (getTestFramework language none) ".test.js" = ".test.js") := by
  by_cases h1 : language = "javascript"
  · subst h1; left; decide
  by_cases h2 : language = "typescript"
  · subst h2; left; decide
  by_cases h3 : language = "python"
  · subst h3; left; decide
  by_cases h4 : language = "java"
  · subst h4; left; decide
  by_cases h5 : language = "go"
  · subst h5; left; decide
  by_cases h6 : language = "csharp"
  · subst h6; left; decide
  have hlook : getTestFramework language none =
      if language ∈ inheritedKeys then memberText language else "jest" := by
    have b1 : (language == "javascript") = false := beq_eq_false_iff_ne.mpr h1
    have b2 : (language == "typescript") = false := beq_eq_false_iff_ne.mpr h2
    have b3 : (language == "python") = false := beq_eq_false_iff_ne.mpr h3
    have b4 : (language == "java") = false := beq_eq_false_iff_ne.mpr h4
    have b5 : (language == "go") = false := beq_eq_false_iff_ne.mpr h5
    have b6 : (language == "csharp") = false := beq_eq_false_iff_ne.mpr h6
    simp only [getTestFramework, readOr, List.lookup, b1, b2, b3, b4, b5, b6]
  by_cases hk : language ∈ inheritedKeys
  · right
    rw [hlook, if_pos hk]
    refine ⟨hk, rfl, ?_⟩
    simp only [inheritedKeys, List.mem_cons, List.mem_singleton, List.not_mem_nil,
      or_false] at hk
    rcases hk with h | h | h | h | h | h | h | h | h | h | h | h <;> subst h <;> decide
  · left
    rw [hlook, if_neg hk]
    decide

theorem getTestFileName_eq (originalPath framework : String) :
    getTestFileName originalPath framework =
      String.mk ((splitOnChar '.' ((splitOnChar '/' originalPath.data).getLastD [])).headD []) ++
        readOr
          [("jest", ".test.js"), ("pytest", "_test.py"), ("junit", "Test.java"),
           ("testing", "_test.go"), ("xunit", "Tests.cs")] framework ".test.js" := rfl

/-- With a file, `generateTestCode` sends the one prompt `promptFor` and returns the parsed
object, or the placeholder when there is none. -/
theorem generateTestCode_eq (model : CodeModel) (functionMatches : String → List String)
    (asked : Nat) (mainFile : SourceFile) (files : List SourceFile) (summary : Summary) :
    generateTestCode model functionMatches asked (mainFile :: files) summary =
      (.ok (match model asked (promptFor mainFile summary) with
            | .object o => o
            | _ => getFallbackTestCode functionMatches mainFile summary),
       [promptFor mainFile summary]) := by
  simp only [generateTestCode, promptFor]
  split <;> rfl

/-- The tables read under a name inherited from `Object.prototype`: a file of language
`constructor` gets the text of the function `Object` as framework and the default suffix, and
the framework name `constructor` gets that text as suffix. -/
theorem getTestFramework_inherited :
    getTestFramework "constructor" none = "function Object() \x7b [native code] \x7d" ∧
    getTestFramework "constructor" (some "mocha") = "function Object() \x7b [native code] \x7d" ∧
    getTestFramework "__proto__" none = "[object Object]" ∧
    getTestFramework "toString" none = "function toString() \x7b [native code] \x7d" ∧
    getTestFileName "app.js" (getTestFramework "constructor" none) = "app.test.js" ∧
    getTestFileName "app.js" "constructor" = "appfunction Object() \x7b [native code] \x7d" ∧
    getRunCommand (getTestFramework "constructor" none) = "npm test" := by
  decide

/-- C12: with at least one file, `generateTestCode` returns an object, whatever the summary and
the backend, after the one prompt `promptFor`; the object is the parsed one when the backend
answers that prompt with one; and when it does not, the object returned reports the framework
`getTestFramework` gives the language of the first file and its `filename` is
`getTestFileName(files[0].path, framework)` for that framework, which ends with the suffix of
that framework: the one of the naming table when the framework is one of its five, and the
default `.test.js` when the language names a member inherited from `Object.prototype` and the
framework reported is the text of that member. -/
theorem generateTestCode_total (model : CodeModel) (functionMatches : String → List String)
    (asked : Nat) (mainFile : SourceFile) (rest : List SourceFile) (summary : Summary) :
    (generateTestCode model functionMatches asked (mainFile :: rest) summary).2 =
      [promptFor mainFile summary] ∧
    ∃ o, (generateTestCode model functionMatches asked (mainFile :: rest) summary).1 = .ok o ∧
      (∀ parsed, model asked (promptFor mainFile summary) = .object parsed → o = parsed) ∧
      ((∀ parsed, model asked (promptFor mainFile summary) ≠ .object parsed) →
        ∃ framework suffix stem,
          framework = getTestFramework mainFile.language none ∧
          JsObject.get o "framework" = some framework ∧
          JsObject.get o "filename" = some (getTestFileName mainFile.path framework) ∧
          JsObject.get o "language" = some mainFile.language ∧
          getTestFileName mainFile.path framework = stem ++ suffix ∧
          ((framework, suffix) ∈
              [("jest", ".test.js"), ("pytest", "_test.py"), ("junit", "Test.java"),
               ("testing", "_test.go"), ("xunit", "Tests.cs")] ∨
            (mainFile.language ∈ inheritedKeys ∧ framework = memberText mainFile.language ∧
              suffix = ".test.js"))) := by
  have hfall : ∃ framework suffix stem,
      framework = getTestFramework mainFile.language none ∧
      JsObject.get (getFallbackTestCode functionMatches mainFile summary) "framework" =
        some framework ∧
      JsObject.get (getFallbackTestCode functionMatches mainFile summary) "filename" =
        some (getTestFileName mainFile.path framework) ∧
      JsObject.get (getFallbackTestCode functionMatches mainFile summary) "language" =
        some mainFile.language ∧
      getTestFileName mainFile.path framework = stem ++ suffix ∧
      ((framework, suffix) ∈
          [("jest", ".test.js"), ("pytest", "_test.py"), ("junit", "Test.java"),
           ("testing", "_test.go"), ("xunit", "Tests.cs")] ∨
        (mainFile.language ∈ inheritedKeys ∧ framework = memberText mainFile.language ∧
          suffix = ".test.js")) := by
    refine ⟨getTestFramework mainFile.language none, _, _, rfl, ?_, ?_, ?_,
      getTestFileName_eq _ _, getTestFramework_default mainFile.language⟩
    · simp [getFallbackTestCode, JsObject.get_cons]
    · simp [getFallbackTestCode, JsObject.get_cons]
    · simp [getFallbackTestCode, JsObject.get_cons]
  rw [generateTestCode_eq]
  refine ⟨rfl, _, rfl, ?_, ?_⟩
  · intro parsed h
    simp only [h]
  · intro h
    have : (match model asked (promptFor mainFile summary) with
          | .object o => o
          | _ => getFallbackTestCode functionMatches mainFile summary) =
        getFallbackTestCode functionMatches mainFile summary := by
      split
      · rename_i parsed hreply
        exact absurd hreply (h parsed)
      · rfl
    rw [this]
    exact hfall

/-- A backend that fails on the prompt it is sent: the placeholder for `src/app.js` reports
`jest` and is named `app.test.js`, after one prompt. -/
theorem generateTestCode_total_witness :
    (generateTestCode
        (fun _ prompt => if prompt = promptFor sampleFile sampleSummary then .noObject
          else .object [("code", "")])
        (fun _ => ["add"]) 0 [sampleFile] sampleSummary).2 =
      [promptFor sampleFile sampleSummary] ∧
    ∃ o,
      (generateTestCode
        (fun _ prompt => if prompt = promptFor sampleFile sampleSummary then .noObject
          else .object [("code", "")])
        (fun _ => ["add"]) 0 [sampleFile] sampleSummary).1 = .ok o ∧
      JsObject.get o "framework" = some "jest" ∧
      JsObject.get o "filename" = some "app.test.js" ∧
      JsObject.get o "language" = some "javascript" := by
  obtain ⟨hp, o, h1, -, h2⟩ := generateTestCode_total
    (fun _ prompt => if prompt = promptFor sampleFile sampleSummary then .noObject
      else .object [("code", "")])
    (fun _ => ["add"]) 0 sampleFile [] sampleSummary
  obtain ⟨framework, _, _, h3, h4, h5, h6, -, -⟩ := h2 (fun _ h => by simp at h)
  have h7 : framework = "jest" := by rw [h3]; decide
  subst h7
  exact ⟨hp, o, h1, h4, by rw [h5]; decide, h6⟩

/-- C13 fails on the code: `getTestFileName` keeps what precedes the first dot of the base
name, not the name without its extension, so `utils.helper.js` under jest gives
`utils.test.js` and not `utils.helper.test.js`; for a base name with one dot, as `app.js`, the
five suffixes are the ones of the claim. -/
theorem getTestFileName_first_dot :
    getTestFileName "utils.helper.js" "jest" = "utils.test.js" ∧
    getTestFileName "src/lib/utils.helper.js" "pytest" = "utils_test.py" ∧
    getTestFileName "app.js" "jest" = "app.test.js" ∧
    getTestFileName "app.py" "pytest" = "app_test.py" ∧
    getTestFileName "App.java" "junit" = "AppTest.java" ∧
    getTestFileName "app.go" "testing" = "app_test.go" ∧
    getTestFileName "App.cs" "xunit" = "AppTests.cs" := by
  decide

/-- The framework of a language of the table: the preferred one when there is one, the
default of the table otherwise. -/
theorem getTestFramework_table (preferredFramework : Option String) :
    getTestFramework "javascript" preferredFramework = orDefault preferredFramework "jest" ∧
    getTestFramework "typescript" preferredFramework = orDefault preferredFramework "jest" ∧
    getTestFramework "python" preferredFramework = orDefault preferredFramework "pytest" ∧
    getTestFramework "java" preferredFramework = orDefault preferredFramework "junit" ∧
    getTestFramework "go" preferredFramework = orDefault preferredFramework "testing" ∧
    getTestFramework "csharp" preferredFramework = orDefault preferredFramework "xunit" := by
  have h : ∀ d : String, d ≠ "" → orDefault (some (orDefault preferredFramework d)) "jest" =
      orDefault preferredFramework d := by
    intro d hd
    cases preferredFramework with
    | none => simp [orDefault, hd]
    | some p =>
      by_cases hp : p = ""
      · simp [orDefault, hp, hd]
      · simp [orDefault, hp]
  refine ⟨?_, ?_, ?_, ?_, ?_, ?_⟩ <;>
    · simp only [getTestFramework, List.lookup]
      exact h _ (by decide)

/-- C14 fails on the code: for a language outside the table, as the `ruby` that
`getFileLanguage` gives a `.rb` file, `getTestFramework` returns `jest` even when the summary
pins a framework. -/
theorem getTestFramework_pin_dropped :
    getTestFramework "ruby" (some "rspec") = "jest" ∧
    (generateTestCode (fun _ _ => .noObject) (fun _ => []) 0
      [⟨"lib/stack.rb", "class Stack; end", "ruby"⟩]
      { sampleSummary with framework := some "rspec" }).2.map CodePrompt.framework = ["jest"] := by
  decide

/-! ## Classification of host failures -/

/-- Every error `createPullRequest` throws is the unclassified one: the errors raised inside its
`try` carry no status, so the outer `catch` never produces a class mapped from a status. -/
theorem createPullRequest_error_unclassified (host : Host) (now : Nat) (owner repo : String)
    (codes : List CodeData) (err : JsError)
    (h : (createPullRequest host now owner repo codes).result = .error err) :
    ∃ message, err = apiError message := by
  rcases run_shape host now owner repo codes with
    ⟨e2, e3, -, -, hres, -⟩ | ⟨pre, base, sha, -, htail⟩
  · rw [hres] at h
    exact ⟨_, (Except.error.inj h).symm⟩
  · rcases htail with ⟨e, -, hres, -⟩ |
      ⟨v, evs, -, -, ⟨-, hres, -⟩ | ⟨-, rd, pr, -, -, hres, -⟩⟩
    · rw [hres] at h
      exact ⟨_, (Except.error.inj h).symm⟩
    · rw [hres] at h
      exact ⟨_, (Except.error.inj h).symm⟩
    · rw [hres] at h
      cases pr with
      | ok url => simp [prResult] at h
      | error e =>
        simp only [prResult] at h
        exact ⟨_, (Except.error.inj h).symm⟩

/-- C15 fails on the code: a 422 on the branch creation, a 403 on every file write and a 404
on the pull-request creation all reach the outer `catch` wrapped in an error without status;
`createPullRequest` throws `GitHub API error: ...` each time, never the class of the status,
and the route answers the generic `Failed to create pull request`, also for the branch-name
collision. -/
theorem createPullRequest_status_lost :
    (createPullRequest takenHost 7 "o" "r" threeCodes).result =
      .error ⟨"GitHub API error: Failed to create branch: Reference already exists", none⟩ ∧
    (publishStage takenServices codedDb "alice"
        ⟨some "64f000000000000000000001", some []⟩).response =
      .error ⟨500, "Failed to create pull request",
        some "GitHub API error: Failed to create branch: Reference already exists",
        some "Check repository permissions and try again."⟩ ∧
    (publishStage readOnlyServices codedDb "alice"
        ⟨some "64f000000000000000000001", some []⟩).response =
      .error ⟨500, "Failed to create pull request",
        some "GitHub API error: Failed to create any test files",
        some "Check repository permissions and try again."⟩ ∧
    (publishStage { offlineServices with host := noPullHost } codedDb "alice"
        ⟨some "64f000000000000000000001", some []⟩).response =
      .error ⟨500, "Failed to create pull request",
        some "GitHub API error: Failed to create pull request: Not Found",
        some "Check repository permissions and try again."⟩ := by
  decide

/-! ## The publication stage -/

theorem resolveCodes_eq_filter (testCase : TestCase) (ids : List String) (hids : ids ≠ []) :
    resolveCodes testCase ids =
      testCase.generatedCode.filter (fun code =>
        decide (code._id ∈ ids ∨ ∃ summaryId ∈ code.summaryId, summaryId ∈ ids)) := by
  have hlen : ids.length > 0 := List.length_pos.mpr hids
  simp only [resolveCodes, hlen, if_true]
  apply List.filter_congr
  intro code _
  cases hs : code.summaryId with
  | none => simp
  | some summaryId => simp

theorem publishStage_owned (sv : Services) (db : Db) (userId testCaseId : String)
    (ids : List String) (testCase : TestCase) (hid : testCaseId ≠ "")
    (hfind : findById db testCaseId = some testCase) (hown : testCase.userId = userId) :
    publishStage sv db userId ⟨some testCaseId, some ids⟩ =
      if (resolveCodes testCase ids).length = 0 then ⟨.error noGeneratedCode, db, [], []⟩
      else
        match (createPullRequest sv.host sv.now testCase.repository.owner
            testCase.repository.name
            ((resolveCodes testCase ids).map GeneratedCode.toCodeData)).result with
        | .ok prUrl =>
          ⟨.ok ⟨prUrl, "Pull request created successfully", (resolveCodes testCase ids).length⟩,
            db, [], (createPullRequest sv.host sv.now testCase.repository.owner
              testCase.repository.name
              ((resolveCodes testCase ids).map GeneratedCode.toCodeData)).log⟩
        | .error error =>
          ⟨.error (prFailure error), db, [], (createPullRequest sv.host sv.now
            testCase.repository.owner testCase.repository.name
            ((resolveCodes testCase ids).map GeneratedCode.toCodeData)).log⟩ := by
  simp only [publishStage, hid, if_false, hfind, hown, ne_eq, not_true_eq_false]

/-- C17: for a well-formed request on a job owned by the caller, the publication stage resolves
all of `generatedCode` when `generatedCodeIds` is empty and otherwise the entries of
`generatedCode` whose `_id` or `summaryId` occurs in `generatedCodeIds`, in stored order; it
answers `No generated code found for PR creation` exactly when that list is empty, and then
makes no call on the remote host and leaves the collection as it was; otherwise the calls it
makes are those of `createPullRequest` on the resolved artifacts. -/
theorem publishStage_resolves (sv : Services) (db : Db) (userId testCaseId : String)
    (ids : List String) (testCase : TestCase) (hid : testCaseId ≠ "")
    (hfind : findById db testCaseId = some testCase) (hown : testCase.userId = userId) :
    (ids = [] → resolveCodes testCase ids = testCase.generatedCode) ∧
    (ids ≠ [] → resolveCodes testCase ids =
      testCase.generatedCode.filter (fun code =>
        decide (code._id ∈ ids ∨ ∃ summaryId ∈ code.summaryId, summaryId ∈ ids))) ∧
    ((publishStage sv db userId ⟨some testCaseId, some ids⟩).response = .error noGeneratedCode ↔
      resolveCodes testCase ids = []) ∧
    (resolveCodes testCase ids = [] →
      (publishStage sv db userId ⟨some testCaseId, some ids⟩).hostLog = [] ∧
      (publishStage sv db userId ⟨some testCaseId, some ids⟩).db = db) ∧
    (resolveCodes testCase ids ≠ [] →
      (publishStage sv db userId ⟨some testCaseId, some ids⟩).hostLog =
        (createPullRequest sv.host sv.now testCase.repository.owner testCase.repository.name
          ((resolveCodes testCase ids).map GeneratedCode.toCodeData)).log) := by
  refine ⟨fun h => by simp [resolveCodes, h], resolveCodes_eq_filter testCase ids, ?_⟩
  rw [publishStage_owned sv db userId testCaseId ids testCase hid hfind hown]
  by_cases hz : (resolveCodes testCase ids).length = 0
  · have hnil : resolveCodes testCase ids = [] := List.length_eq_zero.mp hz
    simp [hz, hnil]
  · have hne : resolveCodes testCase ids ≠ [] := fun h => hz (by rw [h]; rfl)
    simp only [hz, if_false]
    cases hres : (createPullRequest sv.host sv.now testCase.repository.owner
      testCase.repository.name
      ((resolveCodes testCase ids).map GeneratedCode.toCodeData)).result with
    | ok url => simp [hne]
    | error e => simp [hne, prFailure, noGeneratedCode]

/-- The owner selects the artifacts of summary `s1`: the first and the third are resolved. -/
theorem publishStage_resolves_witness :
    resolveCodes codedJob ["s1"] =
      [storedCode "64f0000000000000000000c0" "s1" "a.test.js",
       storedCode "64f0000000000000000000c2" "s1" "c.test.js"] ∧
    ((publishStage offlineServices codedDb "alice"
        ⟨some "64f000000000000000000001", some ["unknown"]⟩).response = .error noGeneratedCode ↔
      resolveCodes codedJob ["unknown"] = []) :=
  ⟨by decide,
   (publishStage_resolves offlineServices codedDb "alice" "64f000000000000000000001" ["unknown"]
      codedJob (by decide) (by decide) rfl).2.2.1⟩

/-! ## The code stage only appends -/

theorem findById_id {db : Db} {id : String} {t : TestCase} (h : findById db id = some t) :
    t._id = id := by
  have := List.find?_some h
  simpa using this

theorem findById_saved_same (db : Db) (doc t : TestCase) (id : String)
    (h : findById db id = some t) (hdoc : doc._id = id) :
    findById (saved db doc) id = some doc := by
  have ht := findById_id h
  simp only [findById, saved, List.find?_map] at h ⊢
  have hp : ((fun t : TestCase => t._id == id) ∘ fun t => if (t._id == doc._id) = true then doc else t) =
      fun t : TestCase => t._id == id := by
    funext u
    by_cases hu : u._id = doc._id
    · simp [hu, hdoc]
    · simp [hu]
  rw [hp, h]
  simp [ht, hdoc]

theorem findById_saved_other (db : Db) (doc : TestCase) (id : String) (hne : id ≠ doc._id) :
    findById (saved db doc) id = findById db id := by
  simp only [findById, saved, List.find?_map]
  have hp : ((fun t : TestCase => t._id == id) ∘ fun t => if (t._id == doc._id) = true then doc else t) =
      fun t : TestCase => t._id == id := by
    funext u
    by_cases hu : u._id = doc._id
    · have h1 : ¬ doc._id = id := fun h => hne h.symm
      have h2 : ¬ u._id = id := fun h => hne (h.symm.trans hu)
      simp [hu, h1, h2]
    · simp [hu]
  rw [hp]
  cases hf : List.find? (fun t : TestCase => t._id == id) db with
  | none => rfl
  | some u =>
    have hu : u._id = id := by simpa using List.find?_some hf
    have : ¬ u._id = doc._id := fun h => hne (hu.symm.trans h)
    simp [this]

theorem runCodeStage_ok_db (sv : Services) (db : Db) (userId testCaseId : String)
    (ids : List String) (testCase : TestCase) (out : List JsObject) (hid : testCaseId ≠ "")
    (hfind : findById db testCaseId = some testCase) (hown : testCase.userId = userId)
    (hok : (runCodeStage sv db userId ⟨some testCaseId, some ids⟩).response = .ok out) :
    (runCodeStage sv db userId ⟨some testCaseId, some ids⟩).db =
      saved db (pushGeneratedCode sv testCase out) := by
  rw [runCodeStage_owned sv db userId testCaseId ids testCase hid hfind hown] at hok ⊢
  split at hok
  · simp at hok
  · split at hok
    · simp at hok
    · split at hok
      · simp at hok
      · rename_i x gen prompts hgen hlen y u hsave
        simp only [Except.ok.injEq] at hok
        subst hok
        simp [hlen]

/-- The artifacts of a 200 response of the code stage are the ones generated in this call: the
`k`-th is the artifact of the summary the `k`-th matching entry resolves to. -/
theorem runCodeStage_ok_out (sv : Services) (db : Db) (userId testCaseId : String)
    (ids : List String) (testCase : TestCase) (out : List JsObject) (hid : testCaseId ≠ "")
    (hfind : findById db testCaseId = some testCase) (hown : testCase.userId = userId)
    (hok : (runCodeStage sv db userId ⟨some testCaseId, some ids⟩).response = .ok out) :
    List.Forall₂ (fun o p => artifactOf sv testCase p.1 p.2 = some o) out
      (matchedSummaries testCase ids).enum := by
  rw [runCodeStage_owned sv db userId testCaseId ids testCase hid hfind hown] at hok
  rcases generateCodes_spec sv testCase ids [] [] with
    ⟨e, p, hrun, -, -⟩ | ⟨outs, hrun, hall, -, -⟩
  · rw [hrun] at hok
    simp at hok
  · rw [hrun] at hok
    simp only [List.nil_append, List.length_nil] at hok hall
    split at hok
    · simp at hok
    · split at hok
      · simp at hok
      · simp only [Except.ok.injEq] at hok
        subst hok
        exact hall

/-- C18: when the code stage answers 200, the artifacts of the response are the ones
generated in this call, one per matching entry of `summaryIds` in request order, and the record
of the job afterwards has the `generatedCode` it had before followed by these artifacts, in
that order: one stored entry per artifact, the `k`-th with the `_id` the store gives the `k`-th
new subdocument and with the `summaryId`, `code`, `filename`, `framework` and `language` of the
`k`-th artifact; the record has the same `userId`, `files`, `repository`, `summaries` and
`status` as before; the other records of the collection are as they were. -/
theorem runCodeStage_appends (sv : Services) (db : Db) (userId testCaseId : String)
    (ids : List String) (testCase : TestCase) (out : List JsObject) (hid : testCaseId ≠ "")
    (hfind : findById db testCaseId = some testCase) (hown : testCase.userId = userId)
    (hok : (runCodeStage sv db userId ⟨some testCaseId, some ids⟩).response = .ok out) :
    List.Forall₂ (fun o p => artifactOf sv testCase p.1 p.2 = some o) out
      (matchedSummaries testCase ids).enum ∧
    (∃ doc added,
      findById (runCodeStage sv db userId ⟨some testCaseId, some ids⟩).db testCaseId = some doc ∧
      doc.generatedCode = testCase.generatedCode ++ added ∧
      added.length = out.length ∧
      List.Forall₂ (fun stored p =>
          stored._id = sv.newId p.1 ∧
          stored.summaryId = JsObject.get p.2 "summaryId" ∧
          stored.code = JsObject.get p.2 "code" ∧
          stored.filename = JsObject.get p.2 "filename" ∧
          stored.framework = JsObject.get p.2 "framework" ∧
          stored.language = JsObject.get p.2 "language") added out.enum ∧
      doc.files = testCase.files ∧ doc.repository = testCase.repository ∧
      doc.summaries = testCase.summaries ∧ doc.status = testCase.status ∧
      doc.userId = testCase.userId ∧ doc._id = testCase._id) ∧
    (∀ id, id ≠ testCaseId →
      findById (runCodeStage sv db userId ⟨some testCaseId, some ids⟩).db id =
        findById db id) := by
  have hdb := runCodeStage_ok_db sv db userId testCaseId ids testCase out hid hfind hown hok
  have hidt := findById_id hfind
  rw [hdb]
  refine ⟨runCodeStage_ok_out sv db userId testCaseId ids testCase out hid hfind hown hok,
    ⟨pushGeneratedCode sv testCase out,
    out.enum.map (fun p : Nat × JsObject => toGeneratedCode (sv.newId p.1) p.2),
    findById_saved_same db _ testCase testCaseId hfind hidt, rfl, by simp, ?_,
    rfl, rfl, rfl, rfl, rfl, rfl⟩, ?_⟩
  · have key : ∀ (l : List (Nat × JsObject)),
        List.Forall₂ (fun stored p =>
          stored._id = sv.newId p.1 ∧
          stored.summaryId = JsObject.get p.2 "summaryId" ∧
          stored.code = JsObject.get p.2 "code" ∧
          stored.filename = JsObject.get p.2 "filename" ∧
          stored.framework = JsObject.get p.2 "framework" ∧
          stored.language = JsObject.get p.2 "language")
          (l.map (fun p => toGeneratedCode (sv.newId p.1) p.2)) l := by
      intro l
      induction l with
      | nil => exact List.Forall₂.nil
      | cons p rest ih => exact List.Forall₂.cons ⟨rfl, rfl, rfl, rfl, rfl, rfl⟩ ih
    exact key out.enum
  · intro id hne
    have hpid : (pushGeneratedCode sv testCase out)._id = testCaseId := hidt
    exact findById_saved_other db _ id (by rw [hpid]; exact hne)

set_option maxRecDepth 20000 in
/-- The owner asks again for the code of summary `s1` on a job that holds three artifacts: the
record then holds these three followed by the new one, stored with the placeholder code, the
file name, the framework and the language of the artifact returned. -/
theorem runCodeStage_appends_witness :
    ∃ doc,
      findById (runCodeStage laterServices codedDb "alice"
        ⟨some "64f000000000000000000001", some ["s1"]⟩).db "64f000000000000000000001" =
        some doc ∧
      doc.generatedCode =
        [storedCode "64f0000000000000000000c0" "s1" "a.test.js",
         storedCode "64f0000000000000000000c1" "s2" "b.test.js",
         storedCode "64f0000000000000000000c2" "s1" "c.test.js",
         { _id := "64f0000000000000000000d0",
           summaryId := some "s1",
           code := some ("// Unit tests\nimport \x7b add \x7d from '../app.js';\n\n" ++
             "describe('Unit tests', () => \x7b\n" ++
             "  test('should handle valid inputs correctly', () => \x7b\n" ++
             "    // Arrange\n    const input = 'test';\n    \n    // Act & Assert\n" ++
             "    expect(true).toBe(true); // Replace with actual test\n  \x7d);\n\n" ++
             "  test('should handle edge cases', () => \x7b\n" ++
             "    // Test edge cases here\n    expect(true).toBe(true);\n  \x7d);\n\x7d);"),
           filename := some "app.test.js",
           framework := some "jest",
           language := some "javascript" }] ∧
      doc.summaries = codedJob.summaries ∧ doc.files = codedJob.files ∧
      doc.status = "completed" := by
  obtain ⟨-, ⟨doc, added, h1, h2, -, hall, hfiles, -, hsum, hstatus, -, -⟩, -⟩ :=
    runCodeStage_appends laterServices codedDb "alice"
      "64f000000000000000000001" ["s1"] codedJob
      [codeEntry sampleSummary (getFallbackTestCode (fun _ => ["add"])
        ⟨"app.js", "function add(a,b)\x7breturn a+b;\x7d", "javascript"⟩ sampleSummary)]
      (by decide) (by decide) rfl rfl
  refine ⟨doc, h1, ?_, hsum, hfiles, hstatus⟩
  rw [h2]
  simp only [List.enum, List.enumFrom] at hall
  cases hall with
  | cons hfirst hrest =>
    cases hrest
    rename_i stored
    obtain ⟨e1, e2, e3, e4, e5, e6⟩ := hfirst
    cases stored
    simp only at e1 e2 e3 e4 e5 e6
    subst e1 e2 e3 e4 e5 e6
    rfl

/-! ## The fallback summaries -/

theorem append_ne_of_take (a b x y : String) (n : Nat) (ha : n ≤ a.data.length)
    (hb : n ≤ b.data.length) (h : a.data.take n ≠ b.data.take n) : a ++ x ≠ b ++ y := by
  intro heq
  have h2 := congrArg (fun s : String => s.data.take n) heq
  simp only [String.data_append] at h2
  rw [List.take_append_of_le_length ha, List.take_append_of_le_length hb] at h2
  exact h h2

theorem append_ne_empty (a x : String) (ha : 0 < a.data.length) : a ++ x ≠ "" := by
  intro heq
  have h2 := congrArg (fun s : String => s.data.length) heq
  simp only [String.data_append, List.length_append] at h2
  have h3 : ("" : String).data.length = 0 := rfl
  rw [h3] at h2
  omega

/-- The three ids of the fallback set are non-empty and pairwise distinct, whatever the clock
returns. -/
theorem fallback_ids (clock : Nat → Nat) (reads : Nat) (files : List SourceFile) :
    (∀ s ∈ getFallbackSummaries clock reads files, s.id ≠ "") ∧
    ((getFallbackSummaries clock reads files).map SummaryDraft.id).Nodup := by
  constructor
  · intro s hs
    simp only [getFallbackSummaries, List.mem_cons, List.mem_singleton, List.not_mem_nil,
      or_false] at hs
    rcases hs with rfl | rfl | rfl <;> exact append_ne_empty _ _ (by decide)
  · simp only [getFallbackSummaries, List.map_cons, List.map_nil, List.nodup_cons,
      List.mem_cons, List.mem_singleton, List.not_mem_nil, or_false, not_or, List.nodup_nil,
      and_true, not_false_eq_true]
    exact ⟨⟨append_ne_of_take _ _ _ _ 10 (by decide) (by decide) (by decide),
      append_ne_of_take _ _ _ _ 10 (by decide) (by decide) (by decide)⟩,
      append_ne_of_take _ _ _ _ 10 (by decide) (by decide) (by decide)⟩

/-- C19: when the generative call raises, or its text holds no array, or the array found is
not JSON, `generateTestSummaries` returns the fallback set: exactly three summaries, the unit
tests of the first file, the integration tests and the edge cases, of types unit, integration
and unit, with priorities high, medium and high,
non-empty ids that are pairwise distinct whatever the clock returns, and a title, description,
type, framework and priority that are the same for any two file lists whose first files have
the same path and language. -/
theorem generateTestSummaries_fallback (model : List FileContext → SummariesReply)
    (clock : Nat → Nat) (files : List SourceFile)
    (h : ∀ items, model (files.map (fun file =>
      ({ path := file.path, language := file.language,
         contentPreview := file.content.take 2000 } : FileContext))) ≠ .array items) :
    generateTestSummaries model clock files = getFallbackSummaries clock 0 files ∧
    (generateTestSummaries model clock files).length = 3 ∧
    (generateTestSummaries model clock files).map SummaryDraft.testType =
      [some "unit", some "integration", some "unit"] ∧
    (generateTestSummaries model clock files).map SummaryDraft.priority =
      ["high", "medium", "high"] ∧
    (generateTestSummaries model clock files).map SummaryDraft.title =
      [some ("Unit Tests for " ++
          orDefault (files.head?.map SourceFile.path) "Main Functions"),
       some "Integration Tests", some "Edge Cases and Error Handling"] ∧
    (∀ s ∈ generateTestSummaries model clock files, s.id ≠ "") ∧
    ((generateTestSummaries model clock files).map SummaryDraft.id).Nodup ∧
    (∀ (clock2 : Nat → Nat) (reads2 : Nat) (files2 : List SourceFile),
      files2.head?.map (fun f => (f.path, f.language)) =
        files.head?.map (fun f => (f.path, f.language)) →
      (getFallbackSummaries clock2 reads2 files2).map
          (fun s => (s.title, s.description, s.testType, s.framework, s.priority)) =
        (generateTestSummaries model clock files).map
          (fun s => (s.title, s.description, s.testType, s.framework, s.priority))) := by
  have heq : generateTestSummaries model clock files = getFallbackSummaries clock 0 files := by
    simp only [generateTestSummaries]
  rw [heq]
  refine ⟨rfl, rfl, rfl, rfl, rfl, (fallback_ids clock 0 files).1,
    (fallback_ids clock 0 files).2, ?_⟩
  intro clock2 reads2 files2 hhead
  have hl : files2.head?.map SourceFile.language = files.head?.map SourceFile.language := by
    have := congrArg (Option.map Prod.snd) hhead
    simpa [Option.map_map, Function.comp_def] using this
  have hp : files2.head?.map SourceFile.path = files.head?.map SourceFile.path := by
    have := congrArg (Option.map Prod.fst) hhead
    simpa [Option.map_map, Function.comp_def] using this
  simp [getFallbackSummaries, hl, hp]

/-- The backend raises on two file lists that start with the same file: same three
summaries up to their ids. -/
theorem generateTestSummaries_fallback_witness :
    (generateTestSummaries (fun _ => .raised ⟨"503 Service Unavailable", none⟩) (fun _ => 5)
      [sampleFile]).map SummaryDraft.id =
      ["fallback_unit_5", "fallback_integration_5", "fallback_edge_5"] ∧
    (getFallbackSummaries (fun k => k) 3 [sampleFile, sampleFile]).map
        (fun s => (s.title, s.description, s.testType, s.framework, s.priority)) =
      (generateTestSummaries (fun _ => .raised ⟨"503 Service Unavailable", none⟩) (fun _ => 5)
        [sampleFile]).map
        (fun s => (s.title, s.description, s.testType, s.framework, s.priority)) :=
  ⟨by decide,
   (generateTestSummaries_fallback (fun _ => .raised ⟨"503 Service Unavailable", none⟩)
      (fun _ => 5) [sampleFile] (fun _ h => by cases h)).2.2.2.2.2.2.2 (fun k => k) 3
      [sampleFile, sampleFile] rfl⟩

/-! ## The file count of the publication response -/

/-- C20: when the publication stage answers 200, `filesCreated` is the number of artifacts
resolved and handed to `createPullRequest`; and on a host that refuses one write of three,
`filesCreated` is 3 while the body of the pull request opened counts 2 files and lists the two
committed paths. -/
theorem filesCreated_counts_resolved :
    (∀ (sv : Services) (db : Db) (userId testCaseId : String) (ids : List String)
        (testCase : TestCase) (created : PrCreated),
      testCaseId ≠ "" → findById db testCaseId = some testCase → testCase.userId = userId →
      (publishStage sv db userId ⟨some testCaseId, some ids⟩).response = .ok created →
      created.filesCreated = (resolveCodes testCase ids).length ∧
      (publishStage sv db userId ⟨some testCaseId, some ids⟩).hostLog =
        (createPullRequest sv.host sv.now testCase.repository.owner testCase.repository.name
          ((resolveCodes testCase ids).map GeneratedCode.toCodeData)).log) ∧
    ((publishStage offlineServices codedDb "alice"
        ⟨some "64f000000000000000000001", some []⟩).response =
      .ok ⟨"https://github.com/o/r/pull/1", "Pull request created successfully", 3⟩ ∧
     committedPaths (publishStage offlineServices codedDb "alice"
        ⟨some "64f000000000000000000001", some []⟩).hostLog =
      ["tests/a.test.js", "tests/c.test.js"] ∧
     ((publishStage offlineServices codedDb "alice"
        ⟨some "64f000000000000000000001", some []⟩).hostLog.getLast?).map Event.call =
      some (.pullsCreate "o" "r" prTitle "workik-ai-tests-7" "main"
        (prBodyHead ++ "2" ++ prBodyMid ++ "- `tests/a.test.js`\n- `tests/c.test.js`" ++
          prBodyTail threeCodes))) := by
  constructor
  · intro sv db userId testCaseId ids testCase created hid hfind hown hok
    rw [publishStage_owned sv db userId testCaseId ids testCase hid hfind hown] at hok ⊢
    by_cases hz : (resolveCodes testCase ids).length = 0
    · simp [hz] at hok
    · simp only [hz, if_false] at hok ⊢
      cases hres : (createPullRequest sv.host sv.now testCase.repository.owner
        testCase.repository.name
        ((resolveCodes testCase ids).map GeneratedCode.toCodeData)).result with
      | ok url =>
        rw [hres] at hok
        simp only [Except.ok.injEq] at hok
        subst hok
        exact ⟨rfl, rfl⟩
      | error e =>
        rw [hres] at hok
        simp at hok
  · exact ⟨by decide, by decide, rfl⟩

/-! ## Decimal rendering of a number -/

theorem digitChar_lt_ten (m : Nat) (h : m < 10) :
    Nat.digitChar m ≠ '_' ∧ (Nat.digitChar m).toNat - 48 = m := by
  interval_cases m <;> exact ⟨by decide, by decide⟩

theorem toDigitsCore_no_underscore :
    ∀ (fuel n : Nat) (ds : List Char), (∀ c ∈ ds, c ≠ '_') →
      ∀ c ∈ Nat.toDigitsCore 10 fuel n ds, c ≠ '_' := by
  intro fuel
  induction fuel with
  | zero => intro n ds h; simpa [Nat.toDigitsCore] using h
  | succ fuel ih =>
    intro n ds h
    have hd := (digitChar_lt_ten (n % 10) (Nat.mod_lt _ (by decide))).1
    have hds : ∀ c ∈ Nat.digitChar (n % 10) :: ds, c ≠ '_' := by
      intro c hc
      rcases List.mem_cons.mp hc with rfl | hc
      · exact hd
      · exact h c hc
    simp only [Nat.toDigitsCore]
    split
    · exact hds
    · exact ih _ _ hds

theorem toDigitsCore_value :
    ∀ (fuel n : Nat) (ds : List Char), n < fuel →
      ∃ pre, Nat.toDigitsCore 10 fuel n ds = pre ++ ds ∧ digitsValue pre = n := by
  intro fuel
  induction fuel with
  | zero => intro n ds h; omega
  | succ fuel ih =>
    intro n ds h
    have hd := (digitChar_lt_ten (n % 10) (Nat.mod_lt _ (by decide))).2
    simp only [Nat.toDigitsCore]
    split
    · rename_i h0
      refine ⟨[Nat.digitChar (n % 10)], rfl, ?_⟩
      simp only [digitsValue, List.foldl_cons, List.foldl_nil, hd]
      omega
    · rename_i h0
      obtain ⟨pre, hpre, hval⟩ := ih (n / 10) (Nat.digitChar (n % 10) :: ds) (by omega)
      refine ⟨pre ++ [Nat.digitChar (n % 10)], by simp [hpre], ?_⟩
      simp only [digitsValue, List.foldl_append, List.foldl_cons, List.foldl_nil, hd] at hval ⊢
      rw [hval]
      omega

theorem toString_nat_data (n : Nat) : (toString n).data = Nat.toDigits 10 n := rfl

theorem toString_nat_no_underscore (n : Nat) : ∀ c ∈ (toString n).data, c ≠ '_' := by
  rw [toString_nat_data]
  exact toDigitsCore_no_underscore _ _ [] (by simp)

theorem toString_nat_injective (m n : Nat) (h : toString m = toString n) : m = n := by
  have hd : Nat.toDigits 10 m = Nat.toDigits 10 n := by
    rw [← toString_nat_data, ← toString_nat_data, h]
  obtain ⟨p, hp, hv⟩ := toDigitsCore_value (m + 1) m [] (by omega)
  obtain ⟨q, hq, hw⟩ := toDigitsCore_value (n + 1) n [] (by omega)
  simp only [Nat.toDigits, hp, hq, List.append_nil] at hd
  rw [← hv, ← hw, hd]

theorem split_at_separator (c : Char) :
    ∀ (xs xs2 ys ys2 : List Char), (∀ x ∈ xs, x ≠ c) → (∀ x ∈ xs2, x ≠ c) →
      xs ++ c :: ys = xs2 ++ c :: ys2 → xs = xs2 ∧ ys = ys2 := by
  intro xs
  induction xs with
  | nil =>
    intro xs2 ys ys2 _ h2 heq
    cases xs2 with
    | nil => simpa using heq
    | cons x rest =>
      simp only [List.nil_append, List.cons_append, List.cons.injEq] at heq
      exact absurd heq.1.symm (h2 x (by simp))
  | cons x rest ih =>
    intro xs2 ys ys2 h1 h2 heq
    cases xs2 with
    | nil =>
      simp only [List.nil_append, List.cons_append, List.cons.injEq] at heq
      exact absurd heq.1 (h1 x (by simp))
    | cons x2 rest2 =>
      simp only [List.cons_append, List.cons.injEq] at heq
      obtain ⟨hr, hy⟩ := ih rest2 ys ys2 (fun a ha => h1 a (by simp [ha]))
        (fun a ha => h2 a (by simp [ha])) heq.2
      exact ⟨by rw [heq.1, hr], hy⟩

/-- Two synthesized ids are equal only at the same index, whatever the clock readings. -/
theorem syntheticId_index (t t2 index index2 : Nat)
    (h : syntheticId t index = syntheticId t2 index2) : index = index2 := by
  have hd := congrArg String.data h
  simp only [syntheticId, String.data_append, List.append_assoc] at hd
  have hd2 := List.append_cancel_left hd
  have := split_at_separator '_' _ _ _ _ (toString_nat_no_underscore t)
    (toString_nat_no_underscore t2) hd2
  exact toString_nat_injective _ _ (String.ext this.2)

/-! ## The ids of the summaries -/

theorem suppliedId_ne_empty {o : JsObject} {v : String} (h : suppliedId o = some v) : v ≠ "" := by
  unfold suppliedId at h
  split at h
  · rename_i w _
    by_cases hw : w = ""
    · simp [hw] at h
    · simp only [hw, if_false, Option.some.injEq] at h
      exact h ▸ hw
  · simp at h

theorem syntheticId_ne_empty (t index : Nat) : syntheticId t index ≠ "" := by
  unfold syntheticId
  rw [String.append_assoc, String.append_assoc]
  exact append_ne_empty _ _ (by decide)

/-- One step of the map of `generateTestSummaries`: the draft of an element keeps the id the
element supplies, without reading the clock, or takes the id synthesized at its index from one
reading of the clock. -/
theorem mapSummaries_cons (clock : Nat → Nat) (o : JsObject) (rest : List (Option JsObject))
    (index reads : Nat) (drafts : List SummaryDraft) (r : Nat)
    (h : mapSummaries clock (some o :: rest) index reads = (some drafts, r)) :
    ∃ d tail reads2, drafts = d :: tail ∧
      mapSummaries clock rest (index + 1) reads2 = (some tail, r) ∧
      ((suppliedId o = some d.id ∧ reads2 = reads) ∨
        (suppliedId o = none ∧ d.id = syntheticId (clock reads) index ∧ reads2 = reads + 1)) := by
  simp only [mapSummaries] at h
  split at h
  · rename_i tail r1 hrec
    simp only [Prod.mk.injEq, Option.some.injEq] at h
    obtain ⟨hd, hr⟩ := h
    subst hr
    cases hget : JsObject.get o "id" with
    | none =>
      simp only [hget] at hrec hd
      exact ⟨_, tail, _, hd.symm, hrec, Or.inr ⟨by simp [suppliedId, hget], rfl, rfl⟩⟩
    | some v =>
      by_cases hv : v = ""
      · simp only [hget, hv, if_true] at hrec hd
        exact ⟨_, tail, _, hd.symm, hrec, Or.inr ⟨by simp [suppliedId, hget, hv], rfl, rfl⟩⟩
      · simp only [hget, hv, if_false] at hrec hd
        exact ⟨_, tail, _, hd.symm, hrec, Or.inl ⟨by simp [suppliedId, hget, hv], rfl⟩⟩
  · simp at h

/-- Every synthesized id has the synthesized form, at an index not below the start. -/
theorem synthesizedIds_form (clock : Nat → Nat) :
    ∀ (items : List (Option JsObject)) (index reads : Nat),
      ∀ v ∈ synthesizedIds clock items index reads, ∃ t k, index ≤ k ∧ v = syntheticId t k := by
  intro items
  induction items with
  | nil => intro index reads v hv; simp [synthesizedIds] at hv
  | cons item rest ih =>
    intro index reads v hv
    simp only [synthesizedIds] at hv
    split at hv
    · obtain ⟨t, k, hk, hvk⟩ := ih (index + 1) reads v hv
      exact ⟨t, k, by omega, hvk⟩
    · rcases List.mem_cons.mp hv with rfl | hv
      · exact ⟨_, index, Nat.le_refl _, rfl⟩
      · obtain ⟨t, k, hk, hvk⟩ := ih (index + 1) (reads + 1) v hv
        exact ⟨t, k, by omega, hvk⟩

/-- The ids of a completed map: each is non-empty, and is an id the array supplies or one of
the ids synthesized for it; they are pairwise distinct when the supplied ids are and none of
them is one of the synthesized ids. -/
theorem mapSummaries_ids (clock : Nat → Nat) :
    ∀ (items : List (Option JsObject)) (index reads : Nat) (drafts : List SummaryDraft)
      (r : Nat), mapSummaries clock items index reads = (some drafts, r) →
      (∀ d ∈ drafts, d.id ≠ "" ∧
        (d.id ∈ suppliedIds items ∨ d.id ∈ synthesizedIds clock items index reads)) ∧
      ((suppliedIds items).Nodup →
        (∀ v ∈ suppliedIds items, v ∉ synthesizedIds clock items index reads) →
        (drafts.map SummaryDraft.id).Nodup) := by
  intro items
  induction items with
  | nil =>
    intro index reads drafts r h
    simp only [mapSummaries, Prod.mk.injEq, Option.some.injEq] at h
    rw [← h.1]
    simp
  | cons item rest ih =>
    intro index reads drafts r h
    cases item with
    | none => simp [mapSummaries] at h
    | some o =>
      obtain ⟨d, tail, reads2, rfl, hrec, hid⟩ := mapSummaries_cons clock o rest index reads _ r h
      obtain ⟨ihmem, ihnodup⟩ := ih (index + 1) reads2 tail r hrec
      rcases hid with ⟨hs, rfl⟩ | ⟨hs, hsyn, rfl⟩
      · have hsup : suppliedIds (some o :: rest) = d.id :: suppliedIds rest := by
          simp [suppliedIds, List.filterMap_cons, hs]
        have hsynth : synthesizedIds clock (some o :: rest) index reads2 =
            synthesizedIds clock rest (index + 1) reads2 := by
          simp [synthesizedIds, hs]
        rw [hsup, hsynth]
        constructor
        · intro e he
          rcases List.mem_cons.mp he with rfl | he
          · exact ⟨suppliedId_ne_empty hs, Or.inl (by simp)⟩
          · obtain ⟨hne, hor⟩ := ihmem e he
            exact ⟨hne, hor.imp (List.mem_cons_of_mem _) id⟩
        · intro hnd hform
          simp only [List.nodup_cons] at hnd
          simp only [List.map_cons, List.nodup_cons]
          refine ⟨?_, ihnodup hnd.2 (fun v hv => hform v (List.mem_cons_of_mem _ hv))⟩
          intro hmem
          obtain ⟨e, he, hed⟩ := List.mem_map.mp hmem
          rcases (ihmem e he).2 with hor | hor
          · exact hnd.1 (hed ▸ hor)
          · exact hform d.id (by simp) (hed ▸ hor)
      · have hsup : suppliedIds (some o :: rest) = suppliedIds rest := by
          simp [suppliedIds, List.filterMap_cons, hs]
        have hsynth : synthesizedIds clock (some o :: rest) index reads =
            syntheticId (clock reads) index ::
              synthesizedIds clock rest (index + 1) (reads + 1) := by
          simp [synthesizedIds, hs]
        rw [hsup, hsynth]
        constructor
        · intro e he
          rcases List.mem_cons.mp he with rfl | he
          · exact ⟨by rw [hsyn]; exact syntheticId_ne_empty _ _, Or.inr (by simp [hsyn])⟩
          · obtain ⟨hne, hor⟩ := ihmem e he
            exact ⟨hne, hor.imp id (List.mem_cons_of_mem _)⟩
        · intro hnd hform
          simp only [List.map_cons, List.nodup_cons]
          refine ⟨?_, ihnodup hnd
            (fun v hv hmem => hform v hv (List.mem_cons_of_mem _ hmem))⟩
          intro hmem
          obtain ⟨e, he, hed⟩ := List.mem_map.mp hmem
          rcases (ihmem e he).2 with hor | hor
          · exact hform e.id hor (by rw [hed, hsyn]; simp)
          · obtain ⟨t, k, hk, hek⟩ := synthesizedIds_form clock rest (index + 1) (reads + 1)
              e.id hor
            have := syntheticId_index _ _ _ _ (hsyn.symm.trans (hed.symm.trans hek))
            omega

/-- The ids `generateTestSummaries` returns are non-empty; they are pairwise distinct when the
ids the parsed array supplies are pairwise distinct and none is an id synthesized for the
array. -/
theorem generateTestSummaries_ids (model : List FileContext → SummariesReply)
    (clock : Nat → Nat) (files : List SourceFile) :
    (∀ d ∈ generateTestSummaries model clock files, d.id ≠ "") ∧
    ((∀ items, model (files.map (fun file =>
        ({ path := file.path, language := file.language,
           contentPreview := file.content.take 2000 } : FileContext))) = .array items →
        (suppliedIds items).Nodup ∧
        ∀ v ∈ suppliedIds items, v ∉ synthesizedIds clock items 0 0) →
      ((generateTestSummaries model clock files).map SummaryDraft.id).Nodup) := by
  cases hm : model (files.map (fun file =>
      ({ path := file.path, language := file.language,
         contentPreview := file.content.take 2000 } : FileContext))) with
  | array items =>
    cases hmap : mapSummaries clock items 0 0 with
    | mk optDrafts r =>
      cases optDrafts with
      | some drafts =>
        have heq : generateTestSummaries model clock files = drafts := by
          simp only [generateTestSummaries, hm, hmap]
        rw [heq]
        obtain ⟨h1, h2⟩ := mapSummaries_ids clock items 0 0 drafts r hmap
        exact ⟨fun d hd => (h1 d hd).1, fun h => h2 (h items rfl).1 (h items rfl).2⟩
      | none =>
        have heq : generateTestSummaries model clock files =
            getFallbackSummaries clock r files := by
          simp only [generateTestSummaries, hm, hmap]
        rw [heq]
        exact ⟨(fallback_ids clock r files).1, fun _ => (fallback_ids clock r files).2⟩
  | raised e =>
    have heq : generateTestSummaries model clock files = getFallbackSummaries clock 0 files := by
      simp only [generateTestSummaries, hm]
    rw [heq]
    exact ⟨(fallback_ids clock 0 files).1, fun _ => (fallback_ids clock 0 files).2⟩
  | noArray =>
    have heq : generateTestSummaries model clock files = getFallbackSummaries clock 0 files := by
      simp only [generateTestSummaries, hm]
    rw [heq]
    exact ⟨(fallback_ids clock 0 files).1, fun _ => (fallback_ids clock 0 files).2⟩
  | badJson =>
    have heq : generateTestSummaries model clock files = getFallbackSummaries clock 0 files := by
      simp only [generateTestSummaries, hm]
    rw [heq]
    exact ⟨(fallback_ids clock 0 files).1, fun _ => (fallback_ids clock 0 files).2⟩

/-- The route keeps the id of every draft that has one. -/
theorem toSummary_ids (sv : Services) (routeClock : Nat → Nat) :
    ∀ (drafts : List SummaryDraft) (n : Nat), (∀ d ∈ drafts, d.id ≠ "") →
      ((List.enumFrom n drafts).map (fun p => toSummary sv routeClock p.1 p.2)).map Summary.id =
        drafts.map (fun d => some d.id) := by
  intro drafts
  induction drafts with
  | nil => intro n _; rfl
  | cons d rest ih =>
    intro n h
    have hd : d.id ≠ "" := h d (by simp)
    simp only [List.enumFrom_cons, List.map_cons, ih (n + 1) (fun e he => h e (by simp [he]))]
    simp [toSummary, orDefault, hd]

/-- The summary stage stores two summaries under one id in two ways.  On a backend that gives
the same id `t1` to two summaries, both are stored under `t1`.  On a backend that gives the id
`test_5_1` to the first summary and none to the second, when the clock reads 5, the id
synthesized for the second is `test_5_1` again, although the one id supplied is distinct. -/
theorem startSummaryStage_duplicate_ids :
    (startSummaryStage strictServices twinModel (fun _ => 5) (fun _ => 6)
        "64f000000000000000000002" [] "alice" sampleSummaryRequest).response =
      .ok ⟨"64f000000000000000000002",
        [{ _id := "64f0000000000000000000c0", id := some "t1", title := some "Adds numbers",
           description := none, testType := none, framework := none, priority := some "high" },
         { _id := "64f0000000000000000000c1", id := some "t1",
           title := some "Adds negative numbers", description := none, testType := none,
           framework := none, priority := some "low" }]⟩ ∧
    ¬ ([some "t1", some "t1"] : List (Option String)).Nodup ∧
    ¬ (∀ created,
        (startSummaryStage strictServices twinModel (fun _ => 5) (fun _ => 6)
          "64f000000000000000000002" [] "alice" sampleSummaryRequest).response = .ok created →
        (created.summaries.map Summary.id).Nodup) ∧
    (startSummaryStage strictServices collidingModel (fun _ => 5) (fun _ => 6)
        "64f000000000000000000002" [] "alice" sampleSummaryRequest).response =
      .ok ⟨"64f000000000000000000002",
        [{ _id := "64f0000000000000000000c0", id := some "test_5_1", title := none,
           description := none, testType := none, framework := none,
           priority := some "medium" },
         { _id := "64f0000000000000000000c1", id := some "test_5_1", title := some "B",
           description := none, testType := none, framework := none,
           priority := some "medium" }]⟩ ∧
    suppliedIds [some [("id", "test_5_1")], some [("title", "B")]] = ["test_5_1"] ∧
    synthesizedIds (fun _ => 5) [some [("id", "test_5_1")], some [("title", "B")]] 0 0 =
      ["test_5_1"] ∧
    ¬ ([some "test_5_1", some "test_5_1"] : List (Option String)).Nodup := by
  refine ⟨by decide, by decide, fun h => ?_, by decide, by decide, by decide, by decide⟩
  have h2 := h ⟨"64f000000000000000000002",
    [{ _id := "64f0000000000000000000c0", id := some "t1", title := some "Adds numbers",
       description := none, testType := none, framework := none, priority := some "high" },
     { _id := "64f0000000000000000000c1", id := some "t1",
       title := some "Adds negative numbers", description := none, testType := none,
       framework := none, priority := some "low" }]⟩ (by decide)
  exact absurd h2 (by decide)

/-- C11, amended: after the summary stage succeeds, every summary stored has a non-empty id,
the stored ids are the ids `generateTestSummaries` returned (an id the backend supplies is
kept, a missing one is synthesized), and they are pairwise distinct whenever the ids supplied
in the parsed array are pairwise distinct and none of them is an id synthesized for another
element of that array. -/
theorem startSummaryStage_ids (sv : Services) (model : List FileContext → SummariesReply)
    (clock routeClock : Nat → Nat) (docId : String) (db : Db) (userId : String)
    (req : SummaryRequest) (created : SummaryCreated)
    (hok : (startSummaryStage sv model clock routeClock docId db userId req).response =
      .ok created) :
    ∃ files, req.files = some files ∧ files ≠ [] ∧
      created.summaries.map Summary.id =
        (generateTestSummaries model clock files).map (fun d => some d.id) ∧
      (∀ s ∈ created.summaries, ∃ v, s.id = some v ∧ v ≠ "") ∧
      ((∀ items, model (files.map (fun file =>
          ({ path := file.path, language := file.language,
             contentPreview := file.content.take 2000 } : FileContext))) = .array items →
          (suppliedIds items).Nodup ∧
          ∀ v ∈ suppliedIds items, v ∉ synthesizedIds clock items 0 0) →
        (created.summaries.map Summary.id).Nodup) := by
  cases hfiles : req.files with
  | none => simp [startSummaryStage, hfiles] at hok
  | some files =>
    by_cases hlen : files.length = 0
    · simp [startSummaryStage, hfiles, hlen] at hok
    · have hne : files ≠ [] := fun h => hlen (by rw [h]; rfl)
      simp only [startSummaryStage, hfiles, hlen, if_false] at hok
      split at hok
      · simp at hok
      · split at hok
        · simp at hok
        · simp only [Except.ok.injEq] at hok
          obtain ⟨hnonempty, hnodup⟩ := generateTestSummaries_ids model clock files
          have hids := toSummary_ids sv routeClock (generateTestSummaries model clock files) 0
            hnonempty
          have hsum : created.summaries.map Summary.id =
              (generateTestSummaries model clock files).map (fun d => some d.id) := by
            rw [← hok]
            exact hids
          refine ⟨files, rfl, hne, hsum, ?_, ?_⟩
          · intro s hs
            have hmem : s.id ∈ created.summaries.map Summary.id := List.mem_map_of_mem _ hs
            rw [hsum] at hmem
            obtain ⟨d, hd, hdeq⟩ := List.mem_map.mp hmem
            exact ⟨d.id, hdeq.symm, hnonempty d hd⟩
          · intro h
            rw [hsum]
            have := (hnodup h).map (f := Option.some) (Option.some_injective _)
            simpa [List.map_map, Function.comp_def] using this

/-- A backend that supplies `test_999_0` for the first summary and no id for the second, when
the clock reads 5: the one id supplied is not the id `test_5_1` synthesized for the second
summary, and the stored ids are `test_999_0` and `test_5_1`, distinct. -/
theorem startSummaryStage_ids_witness :
    (startSummaryStage strictServices lookalikeModel (fun _ => 5) (fun _ => 6)
        "64f000000000000000000002" [] "alice" sampleSummaryRequest).response =
      .ok ⟨"64f000000000000000000002",
        [{ _id := "64f0000000000000000000c0", id := some "test_999_0",
           title := some "Adds numbers", description := none, testType := none,
           framework := none, priority := some "high" },
         { _id := "64f0000000000000000000c1", id := some "test_5_1",
           title := some "Adds negative numbers", description := none, testType := none,
           framework := none, priority := some "low" }]⟩ ∧
    ([some "test_999_0", some "test_5_1"] : List (Option String)).Nodup := by
  refine ⟨by decide, ?_⟩
  obtain ⟨files, hf, -, -, -, h⟩ := startSummaryStage_ids strictServices lookalikeModel
    (fun _ => 5) (fun _ => 6) "64f000000000000000000002" [] "alice" sampleSummaryRequest
    ⟨"64f000000000000000000002",
      [{ _id := "64f0000000000000000000c0", id := some "test_999_0",
         title := some "Adds numbers", description := none, testType := none,
         framework := none, priority := some "high" },
       { _id := "64f0000000000000000000c1", id := some "test_5_1",
         title := some "Adds negative numbers", description := none, testType := none,
         framework := none, priority := some "low" }]⟩ (by decide)
  refine h (fun items hitems => ?_)
  have hi : items =
      [some [("id", "test_999_0"), ("title", "Adds numbers"), ("priority", "high")],
       some [("title", "Adds negative numbers"), ("priority", "low")]] := by
    simp only [lookalikeModel, SummariesReply.array.injEq] at hitems
    exact hitems.symm
  subst hi
  exact ⟨by decide, by decide⟩

/-! ## The status of a job after a failed summary stage -/

/-- A summary stage that fails leaves the collection as it was, or with the new record in the
status `processing` in which its first save stored it: no path of the route stores `failed`. -/
theorem startSummaryStage_failure_db (sv : Services) (model : List FileContext → SummariesReply)
    (clock routeClock : Nat → Nat) (docId : String) (db : Db) (userId : String)
    (req : SummaryRequest) (failure : Failure)
    (h : (startSummaryStage sv model clock routeClock docId db userId req).response =
      .error failure) :
    (startSummaryStage sv model clock routeClock docId db userId req).db = db ∨
    ∃ doc, (startSummaryStage sv model clock routeClock docId db userId req).db = db ++ [doc] ∧
      doc._id = docId ∧ doc.status = "processing" ∧ doc.summaries = [] := by
  cases hfiles : req.files with
  | none => simp [startSummaryStage, hfiles]
  | some files =>
    by_cases hlen : files.length = 0
    · simp [startSummaryStage, hfiles, hlen]
    · simp only [startSummaryStage, hfiles, hlen, if_false] at h ⊢
      split
      · exact Or.inl rfl
      · rename_i u hfirst
        rw [hfirst] at h
        simp only at h
        split
        · exact Or.inr ⟨_, rfl, rfl, rfl, rfl⟩
        · rename_i u2 hsecond
          rw [hsecond] at h
          simp at h

/-- C16 fails on the code: when the backend gives a summary a priority outside the enum of the
schema, the first save stores the record with status `processing`, the final save is rejected
by the validator, the route answers 500, and the record stays in the collection with status
`processing`: neither absent nor `failed`. -/
theorem startSummaryStage_stuck_processing :
    (startSummaryStage strictServices criticalModel (fun _ => 5) (fun _ => 6)
        "64f000000000000000000002" [] "alice" sampleSummaryRequest).response =
      .error ⟨500, "Failed to generate test summaries", some "TestCase validation failed",
        none⟩ ∧
    (startSummaryStage strictServices criticalModel (fun _ => 5) (fun _ => 6)
        "64f000000000000000000002" [] "alice" sampleSummaryRequest).db.map
        (fun t => (t._id, t.status)) =
      [("64f000000000000000000002", "processing")] := by
  decide


/-- The owner publishes all three artifacts of `codedJob`: `filesCreated` is 3. -/
theorem filesCreated_counts_resolved_witness :
    (3 : Nat) = (resolveCodes codedJob []).length :=
  (filesCreated_counts_resolved.1 offlineServices codedDb "alice" "64f000000000000000000001" []
    codedJob ⟨"https://github.com/o/r/pull/1", "Pull request created successfully", 3⟩
    (by decide) (by decide) rfl (by decide)).1

end Workik
